import Mathlib

/-!
Verification development for the legit-template engine: a shallow embedding
of the lexer, parser, compiler, inheritance resolver and runtime helpers,
with theorems about the claims of the specification.

Strings are modelled as lists of characters (`Str`); the repository's inputs
relevant here are ASCII, so Go's byte-indexed scanning coincides with
character-indexed scanning.
-/

set_option maxRecDepth 8000
set_option maxHeartbeats 1600000

abbrev Str := List Char

/-- Go `strings.HasPrefix` / the lexer's `matchString`. -/
def goHasPrefix (pat s : Str) : Bool :=
  match pat, s with
  | [], _ => true
  | _ :: _, [] => false
  | p :: ps, c :: cs => p = c && goHasPrefix ps cs

/-- Substring test: some suffix of `s` starts with `pat`. -/
def hasSubstr (pat s : Str) : Bool :=
  goHasPrefix pat s ||
    (match s with
     | [] => false
     | _ :: cs => hasSubstr pat cs)

/-- Index of the first occurrence of `pat` in `s` (Go `strings.Index`), if any. -/
def strIndex (pat s : Str) : Option Nat :=
  if goHasPrefix pat s then some 0
  else match s with
    | [] => none
    | _ :: cs => (strIndex pat cs).map (· + 1)

/-- Go `unicode.IsSpace` restricted to the ASCII range (the only characters
the embedded inputs contain). -/
def goIsSpace (c : Char) : Bool :=
  c = ' ' || c = '\t' || c = '\n' || c = '\x0b' || c = '\x0c' || c = '\r'

/-- Go `strings.TrimSpace` (ASCII range). -/
def goTrimSpace (s : Str) : Str :=
  (s.dropWhile goIsSpace).reverse.dropWhile goIsSpace |>.reverse

/-- Go `strings.TrimPrefix`. -/
def goTrimPrefix (pat s : Str) : Str :=
  if goHasPrefix pat s then s.drop pat.length else s

/-- Go `strings.Contains`. -/
def goContains (s pat : Str) : Bool := hasSubstr pat s

/-- Go `strings.ReplaceAll` (non-overlapping, left to right), with fuel
for structural recursion; every step consumes input, so `length + 1`
fuel computes the function. -/
def goReplaceAllF : Nat → Str → Str → Str → Str
  | 0, s, _, _ => s
  | fuel + 1, s, pat, rep =>
    if pat = [] then s
    else
      match s with
      | [] => []
      | c :: cs =>
        if goHasPrefix pat (c :: cs) then
          rep ++ goReplaceAllF fuel ((c :: cs).drop pat.length) pat rep
        else
          c :: goReplaceAllF fuel cs pat rep

def goReplaceAll (s pat rep : Str) : Str :=
  goReplaceAllF (s.length + 1) s pat rep

/-- Go `strings.SplitN` with a positive bound `n`: at most `n` pieces. -/
def goSplitN (s pat : Str) (n : Nat) : List Str :=
  if pat = [] then [s]
  else match n with
    | 0 => []
    | 1 => [s]
    | Nat.succ (Nat.succ m) =>
      match strIndex pat s with
      | none => [s]
      | some i => s.take i :: goSplitN (s.drop (i + pat.length)) pat (Nat.succ m)
  termination_by structural n

/-- Decimal representation of a natural number (Go `fmt.Sprintf("%d", _)`). -/
def natDigits (n : Nat) : Str :=
  (Nat.toDigits 10 n)

/-- Decimal representation of an integer. -/
def intStr (n : Int) : Str :=
  if n < 0 then '-' :: natDigits n.natAbs else natDigits n.natAbs

/- ### Loop runtime (runtime/loop.go) -/

/-- The `$loop` record of the runtime package.  `parent` is the Go `*Loop`
back-reference, `none` for `nil`. -/
inductive Loop where
  | mk (index iteration remaining count : Int)
       (first last even odd : Bool)
       (depth : Int) (parent : Option Loop)

def Loop.index : Loop → Int | .mk i _ _ _ _ _ _ _ _ _ => i
def Loop.iteration : Loop → Int | .mk _ it _ _ _ _ _ _ _ _ => it
def Loop.remaining : Loop → Int | .mk _ _ r _ _ _ _ _ _ _ => r
def Loop.count : Loop → Int | .mk _ _ _ c _ _ _ _ _ _ => c
def Loop.first : Loop → Bool | .mk _ _ _ _ f _ _ _ _ _ => f
def Loop.last : Loop → Bool | .mk _ _ _ _ _ l _ _ _ _ => l
def Loop.even : Loop → Bool | .mk _ _ _ _ _ _ e _ _ _ => e
def Loop.odd : Loop → Bool | .mk _ _ _ _ _ _ _ o _ _ => o
def Loop.depth : Loop → Int | .mk _ _ _ _ _ _ _ _ d _ => d
def Loop.parent : Loop → Option Loop | .mk _ _ _ _ _ _ _ _ _ p => p

/-- `runtime.NewLoop(count, depth)`. -/
def NewLoop (count depth : Int) : Loop :=
  .mk (-1) 0 count count true (count == 1) false true depth none

/-- `Loop.Update(index)`: derives the record for the next iteration.  Go's
`%` is truncated division remainder, `Int.tmod` here. -/
def Loop.update (l : Loop) (index : Int) : Loop :=
  .mk index (index + 1)
    (if l.count ≥ 0 then l.count - index - 1 else -1)
    l.count
    (index == 0)
    (if l.count ≥ 0 then index == l.count - 1 else false)
    ((index + 1).tmod 2 == 0)
    ((index + 1).tmod 2 == 1)
    l.depth l.parent

/- ### Lexer (lexer/lexer.go) -/

/-- Token kinds of the lexer. -/
inductive TokType where
  | text | echoEscaped | echoRaw | comment
  | directive | directiveArgs | verbatimStart | verbatimEnd | eof
  deriving DecidableEq, Repr

/-- Source position `{Line, Column, Offset}`. -/
structure Pos where
  line : Nat
  column : Nat
  offset : Nat
  deriving DecidableEq, Repr

/-- A lexical token `{Type, Value, Args, Position}`. -/
structure Token where
  type : TokType
  value : Str
  args : Str
  pos : Pos
  deriving DecidableEq, Repr

/-- A lexer error (`LexerError{Message, Position}`). -/
structure LexErr where
  message : Str
  pos : Pos
  deriving DecidableEq, Repr

/-- Lexer state: the remaining input plus the current position and the
verbatim-mode flag.  Go's `l.pos` index is modelled by the remaining
suffix `rem`. -/
structure LexSt where
  rem : Str
  line : Nat
  column : Nat
  offset : Nat
  inVerbatim : Bool
  deriving DecidableEq, Repr

/-- `Lexer.advance`: consume one character, updating line/column/offset. -/
def lexAdvance (st : LexSt) : LexSt :=
  match st.rem with
  | [] => st
  | c :: cs =>
    if c = '\n' then
      { st with rem := cs, line := st.line + 1, column := 1, offset := st.offset + 1 }
    else
      { st with rem := cs, column := st.column + 1, offset := st.offset + 1 }

/-- `Lexer.advanceN`. -/
def lexAdvanceN : Nat → LexSt → LexSt
  | 0, st => st
  | n + 1, st => lexAdvanceN n (lexAdvance st)

/-- The position recorded in a token produced at state `st`. -/
def lexPos (st : LexSt) : Pos := ⟨st.line, st.column, st.offset⟩

/-- Go's letter test (`unicode.IsLetter`), restricted to ASCII. -/
def goIsLetter (c : Char) : Bool := c.isAlpha

def goIsDigit (c : Char) : Bool := c.isDigit

/-- The scanning loop of `scanComment`: split at the first `--}}`,
returning the enclosed content and the input after the terminator. -/
def commentSplit : Str → Option (Str × Str)
  | [] => none
  | c :: cs =>
    if goHasPrefix ('-' :: '-' :: '\x7d' :: '\x7d' :: []) (c :: cs) then
      some ([], (c :: cs).drop 4)
    else
      (commentSplit cs).map (fun p => (c :: p.1, p.2))

/-- The scanning loop of `scanRawEcho`: split at the first `!!}`. -/
def rawEchoSplit : Str → Option (Str × Str)
  | [] => none
  | c :: cs =>
    if goHasPrefix ('!' :: '!' :: '\x7d' :: []) (c :: cs) then
      some ([], (c :: cs).drop 3)
    else
      (rawEchoSplit cs).map (fun p => (c :: p.1, p.2))

/-- The scanning loop of `scanEscapedEcho`: split at the first `}}`. -/
def escEchoSplit : Str → Option (Str × Str)
  | [] => none
  | c :: cs =>
    if goHasPrefix ('\x7d' :: '\x7d' :: []) (c :: cs) then
      some ([], (c :: cs).drop 2)
    else
      (escEchoSplit cs).map (fun p => (c :: p.1, p.2))

/-- The scanning loop of `scanVerbatimContent`: split at `@endverbatim`. -/
def verbatimSplit : Str → Option (Str × Str)
  | [] => none
  | c :: cs =>
    if goHasPrefix "@endverbatim".toList (c :: cs) then
      some ([], (c :: cs).drop 12)
    else
      (verbatimSplit cs).map (fun p => (c :: p.1, p.2))

/-- `Lexer.scanComment` (entered with `{{--` at the head). -/
def scanComment (st : LexSt) : Except LexErr (Token × LexSt) :=
  let startPos := lexPos st
  match commentSplit (st.rem.drop 4) with
  | some (content, _) =>
    .ok (⟨.comment, goTrimSpace content, [], startPos⟩,
         lexAdvanceN (4 + content.length + 4) st)
  | none => .error ⟨"Unclosed comment".toList, startPos⟩

/-- The whitespace skipped by `Lexer.skipWhitespace` (spaces and tabs). -/
def echoWsCount (s : Str) : Nat :=
  (s.takeWhile (fun c => c = ' ' || c = '\t')).length

/-- `Lexer.scanRawEcho` (entered with `{!!` at the head). -/
def scanRawEcho (st : LexSt) : Except LexErr (Token × LexSt) :=
  let startPos := lexPos st
  let ws := echoWsCount (st.rem.drop 3)
  match rawEchoSplit (st.rem.drop (3 + ws)) with
  | some (content, _) =>
    .ok (⟨.echoRaw, goTrimSpace content, [], startPos⟩,
         lexAdvanceN (3 + ws + content.length + 3) st)
  | none => .error ⟨"Unclosed raw echo".toList, startPos⟩

/-- `Lexer.scanEscapedEcho` (entered with `{{` at the head). -/
def scanEscapedEcho (st : LexSt) : Except LexErr (Token × LexSt) :=
  let startPos := lexPos st
  let ws := echoWsCount (st.rem.drop 2)
  match escEchoSplit (st.rem.drop (2 + ws)) with
  | some (content, _) =>
    .ok (⟨.echoEscaped, goTrimSpace content, [], startPos⟩,
         lexAdvanceN (2 + ws + content.length + 2) st)
  | none => .error ⟨"Unclosed echo".toList, startPos⟩

/-- The loop of `scanDirectiveArgs`: consume a balanced-parenthesis argument
string, tracking quoted strings (with backslash escapes) and nesting depth.
Returns the raw argument characters and the input after the closing `)`. -/
def dirArgsLoop : Str → Nat → Bool → Char → Char → Option (Str × Str)
  | [], _, _, _, _ => none
  | ch :: rest, depth, inString, sc, prev =>
    let q := (ch = '"' ∨ ch = '\x27') ∧ prev ≠ '\\'
    let inString2 := if q then (if !inString then true else if ch = sc then false else inString) else inString
    let sc2 := if q ∧ !inString then ch else sc
    let depth2 :=
      if !inString2 then
        (if ch = '(' then depth + 1 else if ch = ')' then depth - 1 else depth)
      else depth
    if depth2 > 0 then
      (dirArgsLoop rest depth2 inString2 sc2 ch).map (fun p => (ch :: p.1, p.2))
    else
      some ([], rest)

/-- `Lexer.scanDirective` (entered at `@` followed by a letter or `_`). -/
def scanDirective (st : LexSt) : Except LexErr (Token × LexSt) :=
  let startPos := lexPos st
  let afterAt := st.rem.drop 1
  let name := afterAt.takeWhile (fun c => goIsLetter c || goIsDigit c || c = '_')
  if name = "verbatim".toList then
    .ok (⟨.verbatimStart, name, [], startPos⟩,
         { lexAdvanceN (1 + name.length) st with inVerbatim := true })
  else
    let afterName := afterAt.drop name.length
    match afterName with
    | '(' :: inner =>
      match dirArgsLoop inner 1 false ' ' '(' with
      | some (args, _) =>
        .ok (⟨.directiveArgs, name, goTrimSpace args, startPos⟩,
             lexAdvanceN (1 + name.length + 1 + args.length + 1) st)
      | none =>
        let stEnd := lexAdvanceN (1 + name.length + 1 + inner.length) st
        .error ⟨"Unclosed parenthesis in directive arguments".toList, lexPos stEnd⟩
    | _ =>
      .ok (⟨.directive, name, [], startPos⟩, lexAdvanceN (1 + name.length) st)

/-- The span consumed by `scanText`: plain text up to the next special
sequence (`{{`, `{!!`, `@@`, or `@` followed by a letter or `_`). -/
def textSpan : Str → Str
  | [] => []
  | c :: cs =>
    if goHasPrefix ('\x7b' :: '\x7b' :: []) (c :: cs) ∨
       goHasPrefix ('\x7b' :: '!' :: '!' :: []) (c :: cs) ∨
       goHasPrefix ('@' :: '@' :: []) (c :: cs) then []
    else if c = '@' && (match cs with | d :: _ => goIsLetter d || d = '_' | [] => false) then []
    else c :: textSpan cs

/-- `Lexer.scanText`.  When the span is empty the source re-dispatches
`nextToken` at the same position; this embedding returns no token and an
unchanged state, and the tokenize loop re-dispatches. -/
def scanText (st : LexSt) : List Token × LexSt :=
  let content := textSpan st.rem
  if content = [] then ([], st)
  else ([⟨.text, content, [], lexPos st⟩], lexAdvanceN content.length st)

/-- `Lexer.scanVerbatimContent`: everything up to `@endverbatim` becomes one
text token (omitted when empty), followed by the verbatim-end token. -/
def scanVerbatimContent (st : LexSt) : Except LexErr (List Token × LexSt) :=
  let startPos := lexPos st
  match verbatimSplit st.rem with
  | some (content, _) =>
    let st2 := lexAdvanceN (content.length + 12) st
    let endTok : Token :=
      ⟨.verbatimEnd, "endverbatim".toList, [], ⟨st2.line, st2.column - 12, st2.offset - 12⟩⟩
    let toks :=
      if content ≠ [] then
        [⟨TokType.text, content, [], startPos⟩, endTok]
      else [endTok]
    .ok (toks, { st2 with inVerbatim := false })
  | none => .error ⟨"Unclosed @verbatim block".toList, startPos⟩

/-- `Lexer.nextToken`: dispatch on the head of the remaining input. -/
def nextToken (st : LexSt) : Except LexErr (List Token × LexSt) :=
  if st.inVerbatim then scanVerbatimContent st
  else if goHasPrefix ('\x7b' :: '\x7b' :: '-' :: '-' :: []) st.rem then
    (scanComment st).map (fun p => ([p.1], p.2))
  else if goHasPrefix ('\x7b' :: '!' :: '!' :: []) st.rem then
    (scanRawEcho st).map (fun p => ([p.1], p.2))
  else if goHasPrefix ('\x7b' :: '\x7b' :: []) st.rem then
    (scanEscapedEcho st).map (fun p => ([p.1], p.2))
  else if goHasPrefix ('@' :: '@' :: []) st.rem then
    .ok ([⟨.text, ['@'], [], lexPos st⟩], lexAdvanceN 2 st)
  else if (match st.rem with
           | '@' :: d :: _ => goIsLetter d || d = '_'
           | _ => false) then
    (scanDirective st).map (fun p => ([p.1], p.2))
  else
    .ok (scanText st)

/-- The `Tokenize` main loop, with fuel bounding the number of
dispatches (every dispatch of the source loop consumes input, so
`length + 1` fuel always suffices). -/
def tokenizeLoop : Nat → LexSt → Except LexErr (List Token)
  | 0, _ => .ok []
  | n + 1, st =>
    if st.rem = [] then
      .ok [⟨.eof, [], [], lexPos st⟩]
    else do
      let (toks, st') ← nextToken st
      let rest ← tokenizeLoop n st'
      .ok (toks ++ rest)

/-- `Lexer.Tokenize` on a whole input. -/
def tokenize (input : Str) : Except LexErr (List Token) :=
  tokenizeLoop (input.length + 1) ⟨input, 1, 1, 0, false⟩

/- ### Parser (parser/parser.go) -/

/-- The AST node variants of the parser package.  Node positions are not
modelled: the compiler never reads them.  Else-if clauses, switch cases and
component slots are (name/condition, children) pairs. -/
inductive Node where
  | TextNode (content : Str)
  | EchoNode (expression : Str) (escaped : Bool)
  | CommentNode (content : Str)
  | DirectiveNode (name args : Str)
  | IfNode (condition : Str) (children : List Node)
      (elseifs : List (Str × List Node)) (elseB : Option (List Node))
  | UnlessNode (condition : Str) (children : List Node)
  | SwitchNode (expression : Str) (cases : List (Str × List Node))
      (dflt : Option (List Node))
  | ForNode (init condition post : Str) (children : List Node)
  | ForeachNode (items key value : Str) (children : List Node)
  | ForelseNode (items key value : Str) (children emptyChildren : List Node)
  | WhileNode (condition : Str) (children : List Node)
  | SectionNode (name content : Str) (children : List Node) (show_ : Bool)
  | YieldNode (name dflt : Str)
  | ExtendsNode (template : Str)
  | IncludeNode (variant template data condition : Str)
  | EachNode (template items itemVar emptyView : Str)
  | PushNode (stack : Str) (children : List Node) (once : Bool)
  | PrependNode (stack : Str) (children : List Node)
  | StackNode (name : Str)
  | ComponentNode (name data : Str) (children : List Node)
      (slots : List (Str × List Node))
  | VerbatimNode (content : Str)
  | PhpNode (code : Str)
  | BreakNode (condition : Str)
  | ContinueNode (condition : Str)
  | IssetNode (varName : Str) (children : List Node)
  | EmptyCheckNode (varName : Str) (children : List Node)
  | AuthNode (guard : Str) (children : List Node)
  | GuestNode (guard : Str) (children : List Node)
  | EnvNode (environments : List Str) (children : List Node)
  | ProductionNode (children : List Node)
  | ErrorNode (field : Str) (children : List Node)
  | OnceNode (children : List Node)
  | ParentNode

/-- A parser error.  The position is not tracked (no claim concerns it). -/
structure ParseErr where
  message : Str
  deriving DecidableEq

/-- `trimQuotes`: remove one pair of surrounding single or double quotes. -/
def trimQuotes (s : Str) : Str :=
  let s := goTrimSpace s
  match s with
  | c :: cs =>
    if cs.length ≥ 1 then
      let lastC := (c :: cs).getLast (by simp)
      if (c = '"' ∧ lastC = '"') ∨ (c = '\x27' ∧ lastC = '\x27') then
        (c :: cs).drop 1 |>.dropLast
      else s
    else s
  | [] => s

/-- `splitArgs`: split on commas at bracket-nesting depth 0, outside
quoted strings (with backslash escape of quotes). -/
def splitArgsLoop : Str → Str → Int → Bool → Char → Char → List Str
  | [], current, _, _, _, _ =>
    if current.length > 0 then [goTrimSpace current.reverse] else []
  | ch :: rest, current, depth, inString, sc, prev =>
    let q := (ch = '"' ∨ ch = '\x27') ∧ prev ≠ '\\'
    let inString2 := if q then (if !inString then true else if ch = sc then false else inString) else inString
    let sc2 := if q ∧ !inString then ch else sc
    if !inString2 then
      if ch = '(' ∨ ch = '[' ∨ ch = '\x7b' then
        splitArgsLoop rest (ch :: current) (depth + 1) inString2 sc2 ch
      else if ch = ')' ∨ ch = ']' ∨ ch = '\x7d' then
        splitArgsLoop rest (ch :: current) (depth - 1) inString2 sc2 ch
      else if ch = ',' ∧ depth = 0 then
        goTrimSpace current.reverse :: splitArgsLoop rest [] depth inString2 sc2 ch
      else
        splitArgsLoop rest (ch :: current) depth inString2 sc2 ch
    else
      splitArgsLoop rest (ch :: current) depth inString2 sc2 ch

def splitArgs (args : Str) : List Str :=
  splitArgsLoop args [] 0 false ' ' ' '

/-- `parseEnvList`: an `['a', 'b']` array or a single quoted name. -/
def parseEnvList (args : Str) : List Str :=
  let args := goTrimSpace args
  if goHasPrefix ['['] args ∧ args.getLast? = some ']' then
    (splitArgs (args.drop 1 |>.dropLast)).map trimQuotes
  else
    [trimQuotes args]

/-- `parseForeachArgs`: split `$items as $key => $value` / `$items as $value`. -/
def parseForeachArgs (args : Str) : Str × Str × Str :=
  let parts := goSplitN args " as ".toList 2
  let items := match parts with
    | p :: _ => goTrimSpace p
    | [] => []
  match parts with
  | _ :: valuePart :: _ =>
    let valuePart := goTrimSpace valuePart
    if goContains valuePart ('=' :: '>' :: []) then
      let kv := goSplitN valuePart ('=' :: '>' :: []) 2
      match kv with
      | k :: v :: _ => (items, goTrimSpace k, goTrimSpace v)
      | _ => (items, [], [])
    else (items, [], valuePart)
  | _ => (items, [], [])

/-- `Parser.isDirective`. -/
def isDirTok (name : Str) (toks : List Token) : Bool :=
  match toks with
  | t :: _ => (t.type = .directive ∨ t.type = .directiveArgs) ∧ t.value = name
  | [] => false

/-- `Parser.isAtEnd`. -/
def atEnd (toks : List Token) : Bool :=
  match toks with
  | [] => true
  | t :: _ => t.type = .eof

/-- `eatDir`: consume a terminator directive if present
(`if p.isDirective(X) { p.advance() }`). -/
def eatDir (name : Str) (toks : List Token) : List Token :=
  if isDirTok name toks then toks.drop 1 else toks

mutual

/-- `Parser.parseNode`, with fuel bounding the recursion. -/
def parseNode : Nat → List Token → Except ParseErr (Option Node × List Token)
  | 0, _ => .error ⟨"out of fuel".toList⟩
  | fuel + 1, toks =>
    match toks with
    | [] => .ok (none, [])
    | t :: rest =>
      match t.type with
      | .text => .ok (some (Node.TextNode t.value), rest)
      | .echoEscaped => .ok (some (Node.EchoNode t.value true), rest)
      | .echoRaw => .ok (some (Node.EchoNode t.value false), rest)
      | .comment => .ok (some (Node.CommentNode t.value), rest)
      | .directive => parseDirective fuel t.value t.args rest
      | .directiveArgs => parseDirective fuel t.value t.args rest
      | .verbatimStart => parseVerbatim fuel [] rest
      | .eof => .ok (none, toks)
      | .verbatimEnd => .ok (none, rest)
  termination_by structural f t => f

/-- `Parser.parseDirective`: dispatch on the directive name. -/
def parseDirective (fuel0 : Nat) (name args : Str) (toks : List Token) :
    Except ParseErr (Option Node × List Token) :=
  match fuel0 with
  | 0 => .error ⟨"out of fuel".toList⟩
  | fuel + 1 =>
  if name = "if".toList then do
    let (n, ts) ← parseIfLoop fuel args [] [] none toks
    .ok (some n, ts)
  else if name = "unless".toList then do
    let (cs, ts) ← parseChildrenUntil fuel ["endunless".toList] toks
    .ok (some (Node.UnlessNode args cs), eatDir "endunless".toList ts)
  else if name = "switch".toList then do
    let (cases, dflt, ts) ← parseSwitchLoop fuel [] none none toks
    .ok (some (Node.SwitchNode args cases dflt), eatDir "endswitch".toList ts)
  else if name = "for".toList then do
    let parts := goSplitN args [';'] 3
    let init := goTrimSpace (parts.getD 0 [])
    let cond := goTrimSpace (parts.getD 1 [])
    let post := goTrimSpace (parts.getD 2 [])
    let (cs, ts) ← parseChildrenUntil fuel ["endfor".toList] toks
    .ok (some (Node.ForNode init cond post cs), eatDir "endfor".toList ts)
  else if name = "foreach".toList then do
    let (items, key, value) := parseForeachArgs args
    let (cs, ts) ← parseChildrenUntil fuel ["endforeach".toList] toks
    .ok (some (Node.ForeachNode items key value cs), eatDir "endforeach".toList ts)
  else if name = "forelse".toList then do
    let (items, key, value) := parseForeachArgs args
    let (cs, es, ts) ← parseForelseLoop fuel [] [] false toks
    .ok (some (Node.ForelseNode items key value cs es), eatDir "endforelse".toList ts)
  else if name = "while".toList then do
    let (cs, ts) ← parseChildrenUntil fuel ["endwhile".toList] toks
    .ok (some (Node.WhileNode args cs), eatDir "endwhile".toList ts)
  else if name = "section".toList then do
    let parts := splitArgs args
    let sname := match parts with | p :: _ => trimQuotes p | [] => []
    match parts with
    | _ :: content :: _ =>
      .ok (some (Node.SectionNode sname (trimQuotes content) [] false), toks)
    | _ => do
      let (cs, ts) ← parseChildrenUntil fuel ["endsection".toList, "show".toList] toks
      if isDirTok "show".toList ts then
        .ok (some (Node.SectionNode sname [] cs true), ts.drop 1)
      else
        .ok (some (Node.SectionNode sname [] cs false), eatDir "endsection".toList ts)
  else if name = "yield".toList then
    let parts := splitArgs args
    let yname := match parts with | p :: _ => trimQuotes p | [] => []
    let ydflt := match parts with | _ :: d :: _ => trimQuotes d | _ => []
    .ok (some (Node.YieldNode yname ydflt), toks)
  else if name = "extends".toList then
    .ok (some (Node.ExtendsNode (trimQuotes args)), toks)
  else if name = "include".toList ∨ name = "includeIf".toList ∨
          name = "includeWhen".toList ∨ name = "includeUnless".toList ∨
          name = "includeFirst".toList then
    let parts := splitArgs args
    let node :=
      if name = "include".toList ∨ name = "includeIf".toList then
        Node.IncludeNode name (trimQuotes (parts.getD 0 [])) (parts.getD 1 []) []
      else if name = "includeWhen".toList ∨ name = "includeUnless".toList then
        Node.IncludeNode name (trimQuotes (parts.getD 1 [])) (parts.getD 2 []) (parts.getD 0 [])
      else
        Node.IncludeNode name (parts.getD 0 []) (parts.getD 1 []) []
    .ok (some node, toks)
  else if name = "each".toList then
    let parts := splitArgs args
    .ok (some (Node.EachNode (trimQuotes (parts.getD 0 [])) (parts.getD 1 [])
      (trimQuotes (parts.getD 2 [])) (trimQuotes (parts.getD 3 []))), toks)
  else if name = "push".toList then do
    let (cs, ts) ← parseChildrenUntil fuel ["endpush".toList] toks
    .ok (some (Node.PushNode (trimQuotes args) cs false), eatDir "endpush".toList ts)
  else if name = "pushOnce".toList then do
    let (cs, ts) ← parseChildrenUntil fuel ["endPushOnce".toList] toks
    .ok (some (Node.PushNode (trimQuotes args) cs true), eatDir "endPushOnce".toList ts)
  else if name = "prepend".toList then do
    let (cs, ts) ← parseChildrenUntil fuel ["endprepend".toList] toks
    .ok (some (Node.PrependNode (trimQuotes args) cs), eatDir "endprepend".toList ts)
  else if name = "stack".toList then
    .ok (some (Node.StackNode (trimQuotes args)), toks)
  else if name = "component".toList then do
    let parts := splitArgs args
    let cname := trimQuotes (parts.getD 0 [])
    let cdata := parts.getD 1 []
    let (cs, slots, ts) ← parseComponentLoop fuel [] [] none toks
    .ok (some (Node.ComponentNode cname cdata cs slots), eatDir "endcomponent".toList ts)
  else if name = "php".toList then do
    let (code, ts) ← parsePhpLoop fuel [] toks
    .ok (some (Node.PhpNode (goTrimSpace code)), eatDir "endphp".toList ts)
  else if name = "isset".toList then do
    let (cs, ts) ← parseChildrenUntil fuel ["endisset".toList] toks
    .ok (some (Node.IssetNode args cs), eatDir "endisset".toList ts)
  else if name = "empty".toList then do
    let (cs, ts) ← parseChildrenUntil fuel ["endempty".toList] toks
    .ok (some (Node.EmptyCheckNode args cs), eatDir "endempty".toList ts)
  else if name = "auth".toList then do
    let (cs, ts) ← parseChildrenUntil fuel ["endauth".toList] toks
    .ok (some (Node.AuthNode (trimQuotes args) cs), eatDir "endauth".toList ts)
  else if name = "guest".toList then do
    let (cs, ts) ← parseChildrenUntil fuel ["endguest".toList] toks
    .ok (some (Node.GuestNode (trimQuotes args) cs), eatDir "endguest".toList ts)
  else if name = "env".toList then do
    let (cs, ts) ← parseChildrenUntil fuel ["endenv".toList] toks
    .ok (some (Node.EnvNode (parseEnvList args) cs), eatDir "endenv".toList ts)
  else if name = "production".toList then do
    let (cs, ts) ← parseChildrenUntil fuel ["endproduction".toList] toks
    .ok (some (Node.ProductionNode cs), eatDir "endproduction".toList ts)
  else if name = "error".toList then do
    let (cs, ts) ← parseChildrenUntil fuel ["enderror".toList] toks
    .ok (some (Node.ErrorNode (trimQuotes args) cs), eatDir "enderror".toList ts)
  else if name = "once".toList then do
    let (cs, ts) ← parseChildrenUntil fuel ["endonce".toList] toks
    .ok (some (Node.OnceNode cs), eatDir "endonce".toList ts)
  else if name = "break".toList then
    .ok (some (Node.BreakNode args), toks)
  else if name = "continue".toList then
    .ok (some (Node.ContinueNode args), toks)
  else if name = "parent".toList then
    .ok (some Node.ParentNode, toks)
  else
    .ok (some (Node.DirectiveNode name args), toks)
  termination_by structural fuel0

/-- The repeated block pattern: parse children until end of input or a
terminator directive from `stops` (which is not consumed). -/
def parseChildrenUntil (fuel : Nat) (stops : List Str) (toks : List Token) :
    Except ParseErr (List Node × List Token) :=
  match fuel with
  | 0 => .error ⟨"out of fuel".toList⟩
  | fuel + 1 =>
    if atEnd toks ∨ stops.any (fun s => isDirTok s toks) then
      .ok ([], toks)
    else do
      let (child, ts) ← parseNode fuel toks
      let (cs, ts') ← parseChildrenUntil fuel stops ts
      .ok ((match child with | some c => [c] | none => []) ++ cs, ts')
  termination_by structural fuel

/-- The main loop of `parseIf`. -/
def parseIfLoop (fuel : Nat) (cond : Str) (children : List Node)
    (elseifs : List (Str × List Node)) (elseB : Option (List Node))
    (toks : List Token) : Except ParseErr (Node × List Token) :=
  match fuel with
  | 0 => .error ⟨"out of fuel".toList⟩
  | fuel + 1 =>
    if atEnd toks then
      .ok (Node.IfNode cond children elseifs elseB, toks)
    else if isDirTok "elseif".toList toks then do
      let econd := match toks with | t :: _ => t.args | [] => []
      let (ecs, ts) ← parseChildrenUntil fuel
        ["elseif".toList, "else".toList, "endif".toList] (toks.drop 1)
      parseIfLoop fuel cond children (elseifs ++ [(econd, ecs)]) elseB ts
    else if isDirTok "else".toList toks then do
      let (ecs, ts) ← parseChildrenUntil fuel ["endif".toList] (toks.drop 1)
      parseIfLoop fuel cond children elseifs (some ecs) ts
    else if isDirTok "endif".toList toks then
      .ok (Node.IfNode cond children elseifs elseB, toks.drop 1)
    else if elseifs.isEmpty ∧ elseB.isNone then do
      let (child, ts) ← parseNode fuel toks
      parseIfLoop fuel cond
        (children ++ (match child with | some c => [c] | none => [])) elseifs elseB ts
    else
      parseIfLoop fuel cond children elseifs elseB toks
  termination_by structural fuel

/-- The main loop of `parseSwitch`: collect cases, the default block, and
consume `break` directives as no-ops. -/
def parseSwitchLoop (fuel : Nat) (cases : List (Str × List Node))
    (currentCase : Option (Str × List Node)) (dflt : Option (List Node))
    (toks : List Token) :
    Except ParseErr (List (Str × List Node) × Option (List Node) × List Token) :=
  match fuel with
  | 0 => .error ⟨"out of fuel".toList⟩
  | fuel + 1 =>
    if atEnd toks ∨ isDirTok "endswitch".toList toks then
      .ok (cases ++ (match currentCase with | some c => [c] | none => []), dflt, toks)
    else if isDirTok "case".toList toks then
      let v := match toks with | t :: _ => t.args | [] => []
      parseSwitchLoop fuel
        (cases ++ (match currentCase with | some c => [c] | none => []))
        (some (v, [])) dflt (toks.drop 1)
    else if isDirTok "default".toList toks then
      parseSwitchLoop fuel
        (cases ++ (match currentCase with | some c => [c] | none => []))
        none (some []) (toks.drop 1)
    else if isDirTok "break".toList toks then
      parseSwitchLoop fuel cases currentCase dflt (toks.drop 1)
    else do
      let (child, ts) ← parseNode fuel toks
      match child with
      | some c =>
        match dflt with
        | some ds => parseSwitchLoop fuel cases currentCase (some (ds ++ [c])) ts
        | none =>
          match currentCase with
          | some (v, cs) => parseSwitchLoop fuel cases (some (v, cs ++ [c])) dflt ts
          | none => parseSwitchLoop fuel cases currentCase dflt ts
      | none => parseSwitchLoop fuel cases currentCase dflt ts
  termination_by structural fuel

/-- The main loop of `parseForelse` (children, then `@empty` children). -/
def parseForelseLoop (fuel : Nat) (children emptyChildren : List Node)
    (inEmpty : Bool) (toks : List Token) :
    Except ParseErr (List Node × List Node × List Token) :=
  match fuel with
  | 0 => .error ⟨"out of fuel".toList⟩
  | fuel + 1 =>
    if atEnd toks ∨ isDirTok "endforelse".toList toks then
      .ok (children, emptyChildren, toks)
    else if isDirTok "empty".toList toks then
      parseForelseLoop fuel children emptyChildren true (toks.drop 1)
    else do
      let (child, ts) ← parseNode fuel toks
      match child with
      | some c =>
        if inEmpty then parseForelseLoop fuel children (emptyChildren ++ [c]) inEmpty ts
        else parseForelseLoop fuel (children ++ [c]) emptyChildren inEmpty ts
      | none => parseForelseLoop fuel children emptyChildren inEmpty ts
  termination_by structural fuel

/-- The main loop of `parseComponent` (default slot content and named slots). -/
def parseComponentLoop (fuel : Nat) (children : List Node)
    (slots : List (Str × List Node)) (currentSlot : Option (Str × List Node))
    (toks : List Token) :
    Except ParseErr (List Node × List (Str × List Node) × List Token) :=
  match fuel with
  | 0 => .error ⟨"out of fuel".toList⟩
  | fuel + 1 =>
    if atEnd toks ∨ isDirTok "endcomponent".toList toks then
      .ok (children,
           slots ++ (match currentSlot with | some s => [s] | none => []), toks)
    else if isDirTok "slot".toList toks then
      let sname := match toks with | t :: _ => trimQuotes t.args | [] => []
      parseComponentLoop fuel children
        (slots ++ (match currentSlot with | some s => [s] | none => []))
        (some (sname, [])) (toks.drop 1)
    else if isDirTok "endslot".toList toks then
      parseComponentLoop fuel children
        (slots ++ (match currentSlot with | some s => [s] | none => []))
        none (toks.drop 1)
    else do
      let (child, ts) ← parseNode fuel toks
      match child with
      | some c =>
        match currentSlot with
        | some (n, cs) => parseComponentLoop fuel children slots (some (n, cs ++ [c])) ts
        | none => parseComponentLoop fuel (children ++ [c]) slots currentSlot ts
      | none => parseComponentLoop fuel children slots currentSlot ts
  termination_by structural fuel

/-- The loop of `parsePhp`: collect the text tokens before `@endphp`. -/
def parsePhpLoop (fuel : Nat) (code : Str) (toks : List Token) :
    Except ParseErr (Str × List Token) :=
  match fuel with
  | 0 => .error ⟨"out of fuel".toList⟩
  | fuel + 1 =>
    if atEnd toks ∨ isDirTok "endphp".toList toks then
      .ok (code, toks)
    else
      match toks with
      | t :: rest =>
        if t.type = .text then parsePhpLoop fuel (code ++ t.value) rest
        else parsePhpLoop fuel code rest
      | [] => .ok (code, toks)
  termination_by structural fuel

/-- `parseVerbatim`: collect text tokens until the verbatim-end token. -/
def parseVerbatim (fuel : Nat) (content : Str) (toks : List Token) :
    Except ParseErr (Option Node × List Token) :=
  match fuel with
  | 0 => .error ⟨"out of fuel".toList⟩
  | fuel + 1 =>
    match toks with
    | [] => .ok (some (Node.VerbatimNode content), [])
    | t :: rest =>
      if t.type = .eof then .ok (some (Node.VerbatimNode content), toks)
      else if t.type = .verbatimEnd then .ok (some (Node.VerbatimNode content), rest)
      else if t.type = .text then parseVerbatim fuel (content ++ t.value) rest
      else parseVerbatim fuel content rest
  termination_by structural fuel

end

/-- The `Parse` main loop: collect top-level nodes until end of input. -/
def parseLoop (fuel : Nat) (toks : List Token) : Except ParseErr (List Node) :=
  match fuel with
  | 0 => .error ⟨"out of fuel".toList⟩
  | fuel + 1 =>
    if atEnd toks then .ok []
    else do
      let (child, ts) ← parseNode fuel toks
      let rest ← parseLoop fuel ts
      .ok ((match child with | some c => [c] | none => []) ++ rest)

/-- `Parser.Parse`: the root node's children. -/
def parseTokens (toks : List Token) : Except ParseErr (List Node) :=
  parseLoop (10 * toks.length + 10) toks

/- ### Compiler (compiler/compiler.go) -/

/-- Go `strings.Trim` with a cutset. -/
def goTrimCutset (cutset : Str) (s : Str) : Str :=
  ((s.dropWhile (cutset.contains ·)).reverse.dropWhile (cutset.contains ·)).reverse

/-- Step 1 of `transformExpression`: the regex `\$([a-zA-Z_][a-zA-Z0-9_]*)`
replaced by `.$1`, i.e. `$name` becomes `.name`. -/
def dollarToDot : Str → Str
  | [] => []
  | '$' :: c :: rest =>
    if goIsLetter c || c = '_' then '.' :: c :: dollarToDot rest
    else '$' :: dollarToDot (c :: rest)
  | c :: rest => c :: dollarToDot rest

def identStart (c : Char) : Bool := goIsLetter c || c = '_'
def identChar (c : Char) : Bool := goIsLetter c || goIsDigit c || c = '_'

/-- Step 3 of `transformExpression`, match attempt: at a position after a
`.`, try to match `([a-zA-Z_][a-zA-Z0-9_]*)\\[[quote]([^quotes]+)[quote]\\]`,
returning the captured name and key and the matched length. -/
def arrayIdxMatchLen (rest : Str) : Option (Str × Str × Nat) :=
  match rest with
  | c :: _ =>
    if identStart c then
      let name := rest.takeWhile identChar
      match rest.drop name.length with
      | '[' :: q :: more =>
        if q = '\x27' ∨ q = '"' then
          let content := more.takeWhile (fun c => ¬ (c = '\x27' ∨ c = '"'))
          match more.drop content.length with
          | q2 :: ']' :: _ =>
            if content ≠ [] ∧ (q2 = '\x27' ∨ q2 = '"') then
              some (name, content, name.length + 2 + content.length + 2)
            else none
          | _ => none
        else none
      | _ => none
    else none
  | [] => none

/-- Step 3 of `transformExpression`: the regex
`\\.([a-zA-Z_][a-zA-Z0-9_]*)\\[[quote]([^quotes]+)[quote]\\]` replaced by
`(index .$1 "$2")`, left to right, non-overlapping (fuelled). -/
def arrayIdxRewriteF : Nat → Str → Str
  | 0, s => s
  | fuel + 1, s =>
    match s with
    | [] => []
    | '.' :: rest =>
      (match arrayIdxMatchLen rest with
       | some (name, content, k) =>
         "(index .".toList ++ name ++ " \"".toList ++ content ++ "\")".toList ++
           arrayIdxRewriteF fuel (rest.drop k)
       | none => '.' :: arrayIdxRewriteF fuel rest)
    | c :: rest => c :: arrayIdxRewriteF fuel rest

def arrayIdxRewrite (s : Str) : Str := arrayIdxRewriteF (s.length + 1) s

/-- The regex `!([^=])` replaced by `not $1`. -/
def bangRewrite : Str → Str
  | [] => []
  | '!' :: c :: rest =>
    if c ≠ '=' then "not ".toList ++ c :: bangRewrite rest
    else '!' :: c :: bangRewrite rest
  | c :: rest => c :: bangRewrite rest

/-- Go regexp `\s`: `[\t\n\f\r ]`. -/
def isPerlSpace (c : Char) : Bool :=
  c = ' ' || c = '\t' || c = '\n' || c = '\x0c' || c = '\r'

/-- The regex `\s+` replaced by a single space (fuelled). -/
def wsCollapseF : Nat → Str → Str
  | 0, s => s
  | fuel + 1, s =>
    match s with
    | [] => []
    | c :: rest =>
      if isPerlSpace c then ' ' :: wsCollapseF fuel (rest.dropWhile isPerlSpace)
      else c :: wsCollapseF fuel rest

def wsCollapse (s : Str) : Str := wsCollapseF (s.length + 1) s

/-- `Compiler.transformExpression`: the textual PHP-to-Go-template rewrite. -/
def transformExpression (expr : Str) : Str :=
  let e := goTrimSpace expr
  let e := dollarToDot e
  let e := goReplaceAll e ('-' :: '>' :: []) ['.']
  let e := arrayIdxRewrite e
  let e := goReplaceAll e "!==".toList " ne ".toList
  let e := goReplaceAll e "!=".toList " ne ".toList
  let e := goReplaceAll e "===".toList " eq ".toList
  let e := goReplaceAll e "==".toList " eq ".toList
  let e := goReplaceAll e "&&".toList " and ".toList
  let e := goReplaceAll e "||".toList " or ".toList
  let e := bangRewrite e
  let e := goReplaceAll e ">=".toList " gte ".toList
  let e := goReplaceAll e "<=".toList " lte ".toList
  let e := goReplaceAll e ['>'] " gt ".toList
  let e := goReplaceAll e ['<'] " lt ".toList
  let e := wsCollapse e
  goTrimSpace e

/-- Association-list lookup (Go map read). -/
def assocGet (l : List (Str × α)) (k : Str) : Option α :=
  match l with
  | [] => none
  | (k', v) :: rest => if k' = k then some v else assocGet rest k

/-- Association-list write (Go map write); iteration order of Go maps is
unspecified, this model fixes insertion order. -/
def assocSet (l : List (Str × α)) (k : Str) (v : α) : List (Str × α) :=
  match l with
  | [] => [(k, v)]
  | (k', v') :: rest =>
    if k' = k then (k', v) :: rest else (k', v') :: assocSet rest k v

/-- Compiler state: inheritance/section/stack side tables, the loop-nesting
depth, and the once-deduplication key set. -/
structure CompSt where
  extendsT : Str
  sections : List (Str × Str)
  parentCalls : List Str
  pushes : List (Str × List Str)
  prepends : List (Str × List Str)
  loopDepth : Int
  onceKeys : List Str

/-- `compiler.New()`. -/
def newCompSt : CompSt := ⟨[], [], [], [], [], 0, []⟩

/-- `escapeBackticks`. -/
def escapeBackticks (s : Str) : Str :=
  goReplaceAll s ['\x60'] "\x60 + \"\x60\" + \x60".toList

/-- `Compiler.extractForRange`, condition part: the regex
`<\s*=?\s*(\d+)` searched left to right; `matchAfterLt` is the attempt
at one `<`. -/
def matchAfterLt (l : Str) : Option Str :=
  let l1 := l.dropWhile isPerlSpace
  let l2 := match l1 with
    | '=' :: t => t
    | _ => l1
  let l3 := l2.dropWhile isPerlSpace
  let ds := l3.takeWhile goIsDigit
  if ds = [] then none else some ds

def forCondEnd : Str → Option Str
  | [] => none
  | '<' :: rest =>
    (match matchAfterLt rest with
     | some ds => some ds
     | none => forCondEnd rest)
  | _ :: rest => forCondEnd rest

/-- `Compiler.extractForRange`. -/
def extractForRange (init cond : Str) : Str :=
  let i0 := goTrimPrefix ['$'] init
  let i1 := match strIndex ['='] i0 with
    | some idx => goTrimSpace (i0.drop (idx + 1))
    | none => i0
  let endStr := match forCondEnd cond with
    | some ds => ds
    | none => '1' :: '0' :: []
  i1 ++ [' '] ++ endStr

/-- `Compiler.compileDirective`: the simple-directive lowering. -/
def compileDirectiveStr (name args : Str) : Str :=
  if name = "csrf".toList then
    "<input type=\"hidden\" name=\"_token\" value=\"\x7b\x7b .csrf_token \x7d\x7d\">".toList
  else if name = "method".toList then
    "<input type=\"hidden\" name=\"_method\" value=\"".toList ++
      goTrimCutset ['\x27', '"'] args ++ "\">".toList
  else if name = "json".toList then
    "\x7b\x7b json ".toList ++ transformExpression args ++ " \x7d\x7d".toList
  else if name = "class".toList then
    "class=\"\x7b\x7b classArray ".toList ++ args ++ " \x7d\x7d\"".toList
  else if name = "style".toList then
    "style=\"\x7b\x7b styleArray ".toList ++ args ++ " \x7d\x7d\"".toList
  else if name = "checked".toList then
    "\x7b\x7b if ".toList ++ transformExpression args ++ " \x7d\x7dchecked\x7b\x7b end \x7d\x7d".toList
  else if name = "selected".toList then
    "\x7b\x7b if ".toList ++ transformExpression args ++ " \x7d\x7dselected\x7b\x7b end \x7d\x7d".toList
  else if name = "disabled".toList then
    "\x7b\x7b if ".toList ++ transformExpression args ++ " \x7d\x7ddisabled\x7b\x7b end \x7d\x7d".toList
  else if name = "readonly".toList then
    "\x7b\x7b if ".toList ++ transformExpression args ++ " \x7d\x7dreadonly\x7b\x7b end \x7d\x7d".toList
  else if name = "required".toList then
    "\x7b\x7b if ".toList ++ transformExpression args ++ " \x7d\x7drequired\x7b\x7b end \x7d\x7d".toList
  else if name = "old".toList then
    "\x7b\x7b index .old \"".toList ++ goTrimCutset ['\x27', '"'] args ++ "\" \x7d\x7d".toList
  else if args ≠ [] then
    "\x7b\x7b ".toList ++ name ++ " ".toList ++ transformExpression args ++ " \x7d\x7d".toList
  else
    "\x7b\x7b ".toList ++ name ++ " \x7d\x7d".toList

/-- `Compiler.compileInclude`. -/
def compileIncludeStr (variant template data cond : Str) : Str :=
  if variant = "include".toList then
    if data ≠ [] then
      "\x7b\x7b template \"".toList ++ template ++ "\" (merge . ".toList ++ data ++
        ") \x7d\x7d".toList
    else
      "\x7b\x7b template \"".toList ++ template ++ "\" . \x7d\x7d".toList
  else if variant = "includeIf".toList then
    if data ≠ [] then
      "\x7b\x7b if templateExists \"".toList ++ template ++
        "\" \x7d\x7d\x7b\x7b template \"".toList ++ template ++ "\" (merge . ".toList ++
        data ++ ") \x7d\x7d\x7b\x7b end \x7d\x7d".toList
    else
      "\x7b\x7b if templateExists \"".toList ++ template ++
        "\" \x7d\x7d\x7b\x7b template \"".toList ++ template ++
        "\" . \x7d\x7d\x7b\x7b end \x7d\x7d".toList
  else if variant = "includeWhen".toList then
    let c := transformExpression cond
    if data ≠ [] then
      "\x7b\x7b if ".toList ++ c ++ " \x7d\x7d\x7b\x7b template \"".toList ++ template ++
        "\" (merge . ".toList ++ data ++ ") \x7d\x7d\x7b\x7b end \x7d\x7d".toList
    else
      "\x7b\x7b if ".toList ++ c ++ " \x7d\x7d\x7b\x7b template \"".toList ++ template ++
        "\" . \x7d\x7d\x7b\x7b end \x7d\x7d".toList
  else if variant = "includeUnless".toList then
    let c := transformExpression cond
    if data ≠ [] then
      "\x7b\x7b if not ".toList ++ c ++ " \x7d\x7d\x7b\x7b template \"".toList ++ template ++
        "\" (merge . ".toList ++ data ++ ") \x7d\x7d\x7b\x7b end \x7d\x7d".toList
    else
      "\x7b\x7b if not ".toList ++ c ++ " \x7d\x7d\x7b\x7b template \"".toList ++ template ++
        "\" . \x7d\x7d\x7b\x7b end \x7d\x7d".toList
  else if variant = "includeFirst".toList then
    "\x7b\x7b includeFirst ".toList ++ template ++ " . \x7d\x7d".toList
  else []

/-- `compileEcho`: `{{ html e }}` for escaped echo, `{{ e }}` for raw. -/
def compileEchoStr (e : Str) (escaped : Bool) : Str :=
  if escaped then "\x7b\x7b html ".toList ++ e ++ " \x7d\x7d".toList
  else "\x7b\x7b ".toList ++ e ++ " \x7d\x7d".toList

/-- `compileIf` string assembly (children/elseif/else already compiled). -/
def compileIfStr (c cs eis : Str) (es : Option Str) : Str :=
  "\x7b\x7b if ".toList ++ c ++ " \x7d\x7d".toList ++ cs ++ eis ++
    (match es with
     | some ebs => "\x7b\x7b else \x7d\x7d".toList ++ ebs
     | none => []) ++
    "\x7b\x7b end \x7d\x7d".toList

/-- `compileUnless` string assembly. -/
def compileUnlessStr (c cs : Str) : Str :=
  "\x7b\x7b if not ".toList ++ c ++ " \x7d\x7d".toList ++ cs ++
    "\x7b\x7b end \x7d\x7d".toList

/-- `compileSwitch` string assembly. -/
def compileSwitchStr (casesStr : Str) (ds : Option Str) (anyBranch : Bool) : Str :=
  casesStr ++
    (match ds with
     | some dbs => "\x7b\x7b else \x7d\x7d".toList ++ dbs
     | none => []) ++
    (if anyBranch then "\x7b\x7b end \x7d\x7d".toList else [])

/-- `compileFor` string assembly at loop depth `d`. -/
def compileForStr (d : Int) (rangeArgs cs : Str) : Str :=
  "\x7b\x7b $__loop".toList ++ intStr d ++ " := newLoop -1 ".toList ++ intStr d ++
    " \x7d\x7d".toList ++
  "\x7b\x7b range $__idx".toList ++ intStr d ++ " := seq ".toList ++ rangeArgs ++
    " \x7d\x7d".toList ++
  "\x7b\x7b $loop := $__loop".toList ++ intStr d ++ ".Update $__idx".toList ++
    intStr d ++ " \x7d\x7d".toList ++
  cs ++ "\x7b\x7b end \x7d\x7d".toList

/-- The `newLoop` header emitted for foreach/forelse at depth `d`. -/
def loopHeaderStr (d : Int) (its : Str) : Str :=
  "\x7b\x7b $__loop".toList ++ intStr d ++ " := newLoop (len ".toList ++ its ++
    ") ".toList ++ intStr d ++ " \x7d\x7d".toList

/-- The `range` opener emitted for foreach/forelse at depth `d`. -/
def loopRangeStr (d : Int) (k v its : Str) : Str :=
  if k = ['_'] then
    "\x7b\x7b range $__idx".toList ++ intStr d ++ ", $".toList ++ v ++
      " := ".toList ++ its ++ " \x7d\x7d".toList
  else
    "\x7b\x7b range $".toList ++ k ++ ", $".toList ++ v ++ " := ".toList ++ its ++
      " \x7d\x7d".toList

/-- The `$loop := …Update` assignment emitted for foreach/forelse. -/
def loopUpdateStr (d : Int) (k : Str) : Str :=
  if k = ['_'] then
    "\x7b\x7b $loop := $__loop".toList ++ intStr d ++ ".Update $__idx".toList ++
      intStr d ++ " \x7d\x7d".toList
  else
    "\x7b\x7b $loop := $__loop".toList ++ intStr d ++ ".Update $".toList ++ k ++
      " \x7d\x7d".toList

/-- `compileForeach` string assembly at depth `d`. -/
def compileForeachStr (d : Int) (k v its cs : Str) : Str :=
  loopHeaderStr d its ++ loopRangeStr d k v its ++ loopUpdateStr d k ++ cs ++
    "\x7b\x7b end \x7d\x7d".toList

/-- `compileForelse` string assembly at depth `d`. -/
def compileForelseStr (d : Int) (k v its cs es : Str) : Str :=
  "\x7b\x7b if ".toList ++ its ++ " \x7d\x7d".toList ++
  loopHeaderStr d its ++ loopRangeStr d k v its ++ loopUpdateStr d k ++ cs ++
    "\x7b\x7b end \x7d\x7d\x7b\x7b else \x7d\x7d".toList ++ es ++
    "\x7b\x7b end \x7d\x7d".toList

/-- `compileWhile` string assembly at depth `d`: a bounded range over
`until 1000` re-checking the rewritten condition `c` before the children
`cs` on every pass. -/
def compileWhileStr (d : Int) (c cs : Str) : Str :=
  "\x7b\x7b $__loop".toList ++ intStr d ++ " := newLoop -1 ".toList ++ intStr d ++
    " \x7d\x7d".toList ++
  "\x7b\x7b range $__idx".toList ++ intStr d ++ " := until 1000 \x7d\x7d".toList ++
  "\x7b\x7b if not ".toList ++ c ++
    " \x7d\x7d\x7b\x7b break \x7d\x7d\x7b\x7b end \x7d\x7d".toList ++
  "\x7b\x7b $loop := $__loop".toList ++ intStr d ++ ".Update $__idx".toList ++
    intStr d ++ " \x7d\x7d".toList ++
  cs ++ "\x7b\x7b end \x7d\x7d".toList

/-- The in-place `{{ block … }}` emitted by `compileSection` for `@show`
and by `compileYield`. -/
def blockStr (name body : Str) : Str :=
  "\x7b\x7b block \"".toList ++ name ++ "\" . \x7d\x7d".toList ++ body ++
    "\x7b\x7b end \x7d\x7d".toList

/-- `compileYield`. -/
def compileYieldStr (name dflt : Str) : Str :=
  if dflt ≠ [] then blockStr name dflt
  else "\x7b\x7b block \"".toList ++ name ++ "\" . \x7d\x7d\x7b\x7b end \x7d\x7d".toList

/-- `compileEach`. -/
def compileEachStr (template its itemVar emptyView : Str) : Str :=
  if emptyView ≠ [] then
    "\x7b\x7b each \"".toList ++ template ++ "\" ".toList ++ its ++ " \"".toList ++
      itemVar ++ "\" \"".toList ++ emptyView ++ "\" \x7d\x7d".toList
  else
    "\x7b\x7b each \"".toList ++ template ++ "\" ".toList ++ its ++ " \"".toList ++
      itemVar ++ "\" \"\" \x7d\x7d".toList

/-- `compileStack`: the `{{ stack "name" }}` call resolved at render time. -/
def compileStackStr (name : Str) : Str :=
  "\x7b\x7b stack \"".toList ++ name ++ "\" \x7d\x7d".toList

/-- `compileComponent` string assembly (default slot and named slots
already compiled). -/
def compileComponentStr (name data ds slotS : Str) : Str :=
  "\x7b\x7b $__slots := dict \"default\" \x60".toList ++ escapeBackticks ds ++
    "\x60".toList ++ slotS ++ " \x7d\x7d".toList ++
  (if data ≠ [] then
    "\x7b\x7b template \"components/".toList ++ name ++
      "\" (merge . (dict \"slot\" (index $__slots \"default\") \"slots\" $__slots) ".toList ++
      data ++ ") \x7d\x7d".toList
   else
    "\x7b\x7b template \"components/".toList ++ name ++
      "\" (merge . (dict \"slot\" (index $__slots \"default\") \"slots\" $__slots)) \x7d\x7d".toList)

/-- `compilePhp`. -/
def compilePhpStr (code : Str) : Str :=
  "\x7b\x7b /* php: ".toList ++ code ++ " */ \x7d\x7d".toList

/-- `compileIsset`. -/
def compileIssetStr (v cs : Str) : Str :=
  "\x7b\x7b if isset ".toList ++ v ++ " \x7d\x7d".toList ++ cs ++
    "\x7b\x7b end \x7d\x7d".toList

/-- `compileEmptyCheck`. -/
def compileEmptyStr (v cs : Str) : Str :=
  "\x7b\x7b if empty ".toList ++ v ++ " \x7d\x7d".toList ++ cs ++
    "\x7b\x7b end \x7d\x7d".toList

/-- `compileAuth`. -/
def compileAuthStr (guard cs : Str) : Str :=
  (if guard ≠ [] then "\x7b\x7b if auth \"".toList ++ guard ++ "\" \x7d\x7d".toList
   else "\x7b\x7b if .auth \x7d\x7d".toList) ++ cs ++ "\x7b\x7b end \x7d\x7d".toList

/-- `compileGuest`. -/
def compileGuestStr (guard cs : Str) : Str :=
  (if guard ≠ [] then
    "\x7b\x7b if not (auth \"".toList ++ guard ++ "\") \x7d\x7d".toList
   else "\x7b\x7b if not .auth \x7d\x7d".toList) ++ cs ++ "\x7b\x7b end \x7d\x7d".toList

/-- `compileEnv`. -/
def compileEnvStr (envs : List Str) (cs : Str) : Str :=
  (if envs.length = 1 then
    "\x7b\x7b if eq .env \"".toList ++ envs.headD [] ++ "\" \x7d\x7d".toList
   else
    "\x7b\x7b if or ".toList ++
      (List.intercalate [' '] (envs.map (fun e =>
        "(eq .env \"".toList ++ e ++ "\")".toList))) ++ " \x7d\x7d".toList) ++
  cs ++ "\x7b\x7b end \x7d\x7d".toList

/-- `compileProduction`. -/
def compileProductionStr (cs : Str) : Str :=
  "\x7b\x7b if eq .env \"production\" \x7d\x7d".toList ++ cs ++
    "\x7b\x7b end \x7d\x7d".toList

/-- `compileError`. -/
def compileErrorStr (field cs : Str) : Str :=
  "\x7b\x7b if hasError .errors \"".toList ++ field ++ "\" \x7d\x7d".toList ++
  "\x7b\x7b $message := getError .errors \"".toList ++ field ++ "\" \x7d\x7d".toList ++
  cs ++ "\x7b\x7b end \x7d\x7d".toList

/-- `compileBreak`. -/
def compileBreakStr (cond : Str) : Str :=
  if cond ≠ [] then
    "\x7b\x7b if ".toList ++ transformExpression cond ++
      " \x7d\x7d\x7b\x7b break \x7d\x7d\x7b\x7b end \x7d\x7d".toList
  else "\x7b\x7b break \x7d\x7d".toList

/-- `compileContinue`. -/
def compileContinueStr (cond : Str) : Str :=
  if cond ≠ [] then
    "\x7b\x7b if ".toList ++ transformExpression cond ++
      " \x7d\x7d\x7b\x7b continue \x7d\x7d\x7b\x7b end \x7d\x7d".toList
  else "\x7b\x7b continue \x7d\x7d".toList

/-- The `{{__PARENT__}}` marker emitted for `@parent`. -/
def parentMarkerStr : Str := "\x7b\x7b__PARENT__\x7d\x7d".toList

/-- Foreach/forelse key/value normalisation (`_` for a missing key,
`$` prefixes stripped). -/
def foreachKey (key : Str) : Str :=
  goTrimPrefix ['$'] (if key = [] then ['_'] else key)

mutual

/-- `Compiler.compileNode`: AST to Go-template text, threading the
compiler state.  The Go signature returns an error that is always `nil`. -/
def compileNode (st : CompSt) : Node → CompSt × Str
  | .TextNode content => (st, content)
  | .EchoNode expr escaped => (st, compileEchoStr (transformExpression expr) escaped)
  | .CommentNode _ => (st, [])
  | .DirectiveNode name args => (st, compileDirectiveStr name args)
  | .IfNode cond children elseifs elseB =>
    let (st1, cs) := compileChildren st children
    let (st2, eis) := compileElseifs st1 elseifs
    match elseB with
    | some eb =>
      let (st3, ebs) := compileChildren st2 eb
      (st3, compileIfStr (transformExpression cond) cs eis (some ebs))
    | none => (st2, compileIfStr (transformExpression cond) cs eis none)
  | .UnlessNode cond children =>
    let (st1, cs) := compileChildren st children
    (st1, compileUnlessStr (transformExpression cond) cs)
  | .SwitchNode expr cases dflt =>
    let (st1, cs) := compileCases st (transformExpression expr) true cases
    match dflt with
    | some db =>
      let (st2, dbs) := compileChildren st1 db
      (st2, compileSwitchStr cs (some dbs) true)
    | none => (st1, compileSwitchStr cs none (!cases.isEmpty))
  | .ForNode init cond _post children =>
    let d := st.loopDepth + 1
    let (st1, cs) := compileChildren { st with loopDepth := d } children
    ({ st1 with loopDepth := st1.loopDepth - 1 },
     compileForStr d (extractForRange init cond) cs)
  | .ForeachNode items key value children =>
    let d := st.loopDepth + 1
    let (st1, cs) := compileChildren { st with loopDepth := d } children
    ({ st1 with loopDepth := st1.loopDepth - 1 },
     compileForeachStr d (foreachKey key) (goTrimPrefix ['$'] value)
       (transformExpression items) cs)
  | .ForelseNode items key value children emptyChildren =>
    let d := st.loopDepth + 1
    let (st1, cs) := compileChildren { st with loopDepth := d } children
    let (st2, es) := compileChildren st1 emptyChildren
    ({ st2 with loopDepth := st2.loopDepth - 1 },
     compileForelseStr d (foreachKey key) (goTrimPrefix ['$'] value)
       (transformExpression items) cs es)
  | .WhileNode cond children =>
    let d := st.loopDepth + 1
    let (st1, cs) := compileChildren { st with loopDepth := d } children
    ({ st1 with loopDepth := st1.loopDepth - 1 },
     compileWhileStr d (transformExpression cond) cs)
  | .SectionNode name content children showS =>
    if content ≠ [] then
      ({ st with sections := assocSet st.sections name content }, [])
    else
      let (st1, cs) := compileChildren st children
      let st2 :=
        if goContains cs parentMarkerStr then
          { st1 with parentCalls := st1.parentCalls ++ [name] }
        else st1
      let st3 := { st2 with sections := assocSet st2.sections name cs }
      if showS then (st3, blockStr name cs) else (st3, [])
  | .YieldNode name dflt => (st, compileYieldStr name dflt)
  | .ExtendsNode template => ({ st with extendsT := template }, [])
  | .IncludeNode variant template data cond =>
    (st, compileIncludeStr variant template data cond)
  | .EachNode template items itemVar emptyView =>
    (st, compileEachStr template (transformExpression items) itemVar emptyView)
  | .PushNode stack children once =>
    let (st1, cs) := compileChildren st children
    if once then
      let key := "push_".toList ++ stack ++ "_".toList ++ cs
      if st1.onceKeys.contains key then (st1, [])
      else
        let st2 := { st1 with onceKeys := st1.onceKeys ++ [key] }
        let newPushes := assocSet st2.pushes stack ((assocGet st2.pushes stack).getD [] ++ [cs])
        ({ st2 with pushes := newPushes }, [])
    else
      let newPushes := assocSet st1.pushes stack ((assocGet st1.pushes stack).getD [] ++ [cs])
      ({ st1 with pushes := newPushes }, [])
  | .PrependNode stack children =>
    let (st1, cs) := compileChildren st children
    let newPrepends := assocSet st1.prepends stack ([cs] ++ (assocGet st1.prepends stack).getD [])
    ({ st1 with prepends := newPrepends }, [])
  | .StackNode name => (st, compileStackStr name)
  | .ComponentNode name data children slots =>
    let (st1, ds) := compileChildren st children
    let (st2, slotS) := compileSlots st1 slots
    (st2, compileComponentStr name data ds slotS)
  | .VerbatimNode content => (st, content)
  | .PhpNode code => (st, compilePhpStr code)
  | .IssetNode varName children =>
    let (st1, cs) := compileChildren st children
    (st1, compileIssetStr (transformExpression varName) cs)
  | .EmptyCheckNode varName children =>
    let (st1, cs) := compileChildren st children
    (st1, compileEmptyStr (transformExpression varName) cs)
  | .AuthNode guard children =>
    let (st1, cs) := compileChildren st children
    (st1, compileAuthStr guard cs)
  | .GuestNode guard children =>
    let (st1, cs) := compileChildren st children
    (st1, compileGuestStr guard cs)
  | .EnvNode envs children =>
    let (st1, cs) := compileChildren st children
    (st1, compileEnvStr envs cs)
  | .ProductionNode children =>
    let (st1, cs) := compileChildren st children
    (st1, compileProductionStr cs)
  | .ErrorNode field children =>
    let (st1, cs) := compileChildren st children
    (st1, compileErrorStr field cs)
  | .OnceNode children =>
    let (st1, cs) := compileChildren st children
    let key := "once_".toList ++ cs
    if st1.onceKeys.contains key then (st1, [])
    else ({ st1 with onceKeys := st1.onceKeys ++ [key] }, cs)
  | .BreakNode cond => (st, compileBreakStr cond)
  | .ContinueNode cond => (st, compileContinueStr cond)
  | .ParentNode => (st, parentMarkerStr)
  termination_by structural n => n

/-- `Compiler.compileChildren`. -/
def compileChildren (st : CompSt) : List Node → CompSt × Str
  | [] => (st, [])
  | n :: ns =>
    let (st1, s1) := compileNode st n
    let (st2, s2) := compileChildren st1 ns
    (st2, s1 ++ s2)
  termination_by structural ns => ns

/-- The `@elseif` chain of `compileIf`. -/
def compileElseifs (st : CompSt) : List (Str × List Node) → CompSt × Str
  | [] => (st, [])
  | (cond, children) :: rest =>
    let (st1, cs) := compileChildren st children
    let (st2, restS) := compileElseifs st1 rest
    (st2, "\x7b\x7b else if ".toList ++ transformExpression cond ++ " \x7d\x7d".toList ++
      cs ++ restS)
  termination_by structural l => l

/-- The case chain of `compileSwitch`. -/
def compileCases (st : CompSt) (expr : Str) (isFirst : Bool) :
    List (Str × List Node) → CompSt × Str
  | [] => (st, [])
  | (v, children) :: rest =>
    let header :=
      if isFirst then "\x7b\x7b if eq ".toList ++ expr ++ " ".toList ++
        transformExpression v ++ " \x7d\x7d".toList
      else "\x7b\x7b else if eq ".toList ++ expr ++ " ".toList ++
        transformExpression v ++ " \x7d\x7d".toList
    let (st1, cs) := compileChildren st children
    let (st2, restS) := compileCases st1 expr false rest
    (st2, header ++ cs ++ restS)
  termination_by structural l => l

/-- The named-slot compilation of `compileComponent`. -/
def compileSlots (st : CompSt) : List (Str × List Node) → CompSt × Str
  | [] => (st, [])
  | (name, children) :: rest =>
    let (st1, cs) := compileChildren st children
    let (st2, restS) := compileSlots st1 rest
    (st2, " \"".toList ++ name ++ "\" \x60".toList ++ escapeBackticks cs ++
      "\x60".toList ++ restS)
  termination_by structural l => l

end

/-- `Compiler.Compile` over the root's children, from the fresh state. -/
def compileRoot (nodes : List Node) : CompSt × Str :=
  compileChildren newCompSt nodes

/- ### Engine (engine/engine.go) -/

/-- An engine-level compilation error (lexer or parser; the compiler
itself never fails). -/
inductive EngErr where
  | lexE (e : LexErr)
  | parseE (e : ParseErr)
  deriving DecidableEq

/-- `Engine.compile`: tokenize, parse, compile; `processStacks` is the
identity in the source.  Returns (compiled, extends, sections). -/
def engineCompile (content : Str) : Except EngErr (Str × Str × List (Str × Str)) :=
  match tokenize content with
  | .error e => .error (.lexE e)
  | .ok toks =>
    match parseTokens toks with
    | .error e => .error (.parseE e)
    | .ok nodes =>
      let (st, compiled) := compileRoot nodes
      .ok (compiled, st.extendsT, st.sections)

/-- `Engine.compileString`. -/
def compileString (content : Str) : Except EngErr Str :=
  (engineCompile content).map (·.1)

/-- `Engine.resolvePath` with an empty views path and the default
`.legit` extension: dots become path separators. -/
def resolvePath (name : Str) : Str :=
  goReplaceAll name ['.'] ['/'] ++ ".legit".toList

/-- The depth-counting scan of `compileWithInheritance` that finds the
`{{ end }}` matching an opened `{{ block ... }}`: returns the offset just
past the matching `{{ end }}`.  Openers (`{{ if `, `{{ range `,
`{{ with `, `{{ block `) advance by one character; a closing `{{ end }}`
advances by its full length. -/
def findBlockEndF : Nat → Str → Nat → Option Nat
  | 0, _, _ => none
  | fuel + 1, l, depth =>
    if goHasPrefix "\x7b\x7b end \x7d\x7d".toList l then
      (if depth - 1 = 0 then some 9
       else match l with
         | [] => none
         | _ :: t => ((findBlockEndF fuel (t.drop 8) (depth - 1)).map (· + 9)))
    else if goHasPrefix "\x7b\x7b if ".toList l ∨ goHasPrefix "\x7b\x7b range ".toList l ∨
            goHasPrefix "\x7b\x7b with ".toList l ∨ goHasPrefix "\x7b\x7b block ".toList l then
      match l with
      | [] => none
      | _ :: t => (findBlockEndF fuel t (depth + 1)).map (· + 1)
    else
      match l with
      | [] => none
      | _ :: t => (findBlockEndF fuel t depth).map (· + 1)

def findBlockEnd (l : Str) (depth : Nat) : Option Nat :=
  findBlockEndF (l.length + 1) l depth

/-- One iteration of the section-substitution loop of
`compileWithInheritance`: substitute `@parent`, then replace the
placeholder block span for this section, if present. -/
def applySection (parentSections : List (Str × Str)) (acc : Str) (kv : Str × Str) : Str :=
  let name := kv.1
  let content0 := kv.2
  let content :=
    if goContains content0 "\x7b\x7b__PARENT__\x7d\x7d".toList then
      match assocGet parentSections name with
      | some pc => goReplaceAll content0 "\x7b\x7b__PARENT__\x7d\x7d".toList pc
      | none => goReplaceAll content0 "\x7b\x7b__PARENT__\x7d\x7d".toList []
    else content0
  let blockStart := "\x7b\x7b block \"".toList ++ name ++ "\" . \x7d\x7d".toList
  match strIndex blockStart acc with
  | none => acc
  | some startIdx =>
    let searchFrom := startIdx + blockStart.length
    match findBlockEnd (acc.drop searchFrom) 1 with
    | none => acc
    | some rel => acc.take startIdx ++ content ++ acc.drop (searchFrom + rel)

/-- The section-table merge of `compileWithInheritance`: parent-only
sections are added to the child's table (child wins on collisions). -/
def mergeSections (childSections parentSections : List (Str × Str)) : List (Str × Str) :=
  childSections ++ parentSections.filter (fun p => (assocGet childSections p.1).isNone)

/-- `Engine.compileWithInheritance`, over a filesystem modelled as an
association list from resolved paths to file contents.  The Go function
recurses unconditionally whenever the parent itself extends a template;
the fuel parameter bounds that recursion depth, and a `none` result means
the recursion exceeded every bound, i.e. the source function does not
terminate.  The `childCompiled` argument is received (and discarded)
exactly as in the source. -/
def compileWithInheritance (files : List (Str × Str)) :
    Nat → Str → Str → List (Str × Str) → Option (Except EngErr Str)
  | 0, _, _, _ => none
  | fuel + 1, _childCompiled, parentName, childSections =>
    match assocGet files (resolvePath parentName) with
    | none => some (.error (.parseE ⟨"failed to read parent template".toList⟩))
    | some parentContent =>
      match engineCompile parentContent with
      | .error e => some (.error e)
      | .ok (parentCompiled, parentExtends, parentSections) =>
        let merged := mergeSections childSections parentSections
        let parentCompiled2 := merged.foldl (applySection parentSections) parentCompiled
        if parentExtends ≠ [] then
          compileWithInheritance files fuel parentCompiled2 parentExtends merged
        else
          some (.ok parentCompiled2)

/- ### Runtime function registry (engine/functions.go) -/

/-- `template.HTMLEscapeString` (Go standard library, registered as the
`html` function): escapes `<`, `>`, `&`, `'`, `"` and the NUL byte. -/
def htmlEscapeString : Str → Str
  | [] => []
  | c :: rest =>
    (if c = '&' then "&amp;".toList
     else if c = '\x27' then "&#39;".toList
     else if c = '<' then "&lt;".toList
     else if c = '>' then "&gt;".toList
     else if c = '"' then "&#34;".toList
     else if c = '\x00' then "�".toList
     else [c]) ++ htmlEscapeString rest

/-- `seq(start, end)`: the inclusive integer range (both directions). -/
def seq (s e : Int) : List Int :=
  if s > e then (List.range (s - e + 1).toNat).map (fun i => s - i)
  else (List.range (e - s + 1).toNat).map (fun i => s + i)

/-- `until(n)`: `[0, …, n-1]`, empty for `n ≤ 0`. -/
def untilList (n : Int) : List Int :=
  if n ≤ 0 then [] else (List.range n.toNat).map (fun i => (i : Int))

/-- The names registered by `DefaultFunctions()`. -/
def defaultFunctionNames : List Str :=
  ["upper", "lower", "title", "trim", "ltrim", "rtrim", "replace", "contains",
   "hasPrefix", "hasSuffix", "split", "join", "repeat", "substr", "length",
   "nl2br", "ucfirst", "lcfirst", "slug", "limit", "wordLimit",
   "html", "htmlAttr", "js", "url", "safeHTML", "safeJS", "safeURL", "safeCSS",
   "first", "last", "reverse", "sortAsc", "sortDesc", "unique", "pluck",
   "where", "groupBy", "chunk", "flatten", "slice", "append", "prepend", "merge",
   "dict", "set", "unset", "keys", "values", "hasKey",
   "add", "sub", "mul", "div", "mod", "round", "floor", "ceil", "abs",
   "min", "max", "currency", "number", "percent",
   "date", "now", "ago", "diff", "addDate", "subDate", "timestamp",
   "eq", "ne", "lt", "gt", "lte", "gte", "and", "or", "not",
   "default", "isset", "empty", "dump", "json", "jsonDec", "seq", "until",
   "index", "printf", "print", "coalesce", "ternary", "typeof",
   "toInt", "toFloat", "toString", "toBool",
   "newLoop", "hasError", "getError", "classArray", "styleArray"].map String.toList

/-- Execution model of the construct emitted by `compileWhile` (Go
`text/template` semantics of `range`/`break`): iterate the range values;
on each pass first re-check the condition and break when it is false,
otherwise run the loop children once.  Returns the final state and the
number of times the children ran. -/
def runWhileRange (cond : σ → Bool) (body : σ → σ) : List Int → σ → σ × Nat
  | [], s => (s, 0)
  | _ :: rest, s =>
    if cond s then
      let (s', n) := runWhileRange cond body rest (body s)
      (s', n + 1)
    else (s, 0)

/- ### Render context (runtime/context.go), with explicit references -/

/-- The value type stored in the context's `data` table
(`interface{}` in Go; the independence property is value-agnostic). -/
abbrev CtxVal := Str

/-- A heap of context tables.  Go's maps are reference values: a
`Context` holds five references, modelled as indices into these stores,
so that aliasing (or its absence) is represented faithfully. -/
structure CtxHeap where
  dataH : List (List (Str × CtxVal))
  stacksH : List (List (Str × List Str))
  sectionsH : List (List (Str × Str))
  errorsH : List (List (Str × List Str))
  oldH : List (List (Str × Str))

/-- A render context: references into the heap, one per table. -/
structure Ctx where
  dataR : Nat
  stacksR : Nat
  sectionsR : Nat
  errorsR : Nat
  oldR : Nat

/-- All references of a context are live in the heap. -/
abbrev Ctx.Valid (c : Ctx) (h : CtxHeap) : Prop :=
  c.dataR < h.dataH.length ∧ c.stacksR < h.stacksH.length ∧
  c.sectionsR < h.sectionsH.length ∧ c.errorsR < h.errorsH.length ∧
  c.oldR < h.oldH.length

/-- `NewContext()`: allocate five fresh empty tables. -/
def newContext (h : CtxHeap) : Ctx × CtxHeap :=
  (⟨h.dataH.length, h.stacksH.length, h.sectionsH.length, h.errorsH.length, h.oldH.length⟩,
   ⟨h.dataH ++ [[]], h.stacksH ++ [[]], h.sectionsH ++ [[]], h.errorsH ++ [[]], h.oldH ++ [[]]⟩)

/-- The five tables of a context, read through its references. -/
def readCtx (c : Ctx) (h : CtxHeap) :
    List (Str × CtxVal) × List (Str × List Str) × List (Str × Str) ×
      List (Str × List Str) × List (Str × Str) :=
  (h.dataH.getD c.dataR [], h.stacksH.getD c.stacksR [],
   h.sectionsH.getD c.sectionsR [], h.errorsH.getD c.errorsR [],
   h.oldH.getD c.oldR [])

/-- `Context.Clone()`: allocate fresh tables holding copies of the
top-level entries of each of the five tables. -/
def cloneCtx (c : Ctx) (h : CtxHeap) : Ctx × CtxHeap :=
  (⟨h.dataH.length, h.stacksH.length, h.sectionsH.length, h.errorsH.length, h.oldH.length⟩,
   ⟨h.dataH ++ [h.dataH.getD c.dataR []],
    h.stacksH ++ [h.stacksH.getD c.stacksR []],
    h.sectionsH ++ [h.sectionsH.getD c.sectionsR []],
    h.errorsH ++ [h.errorsH.getD c.errorsR []],
    h.oldH ++ [h.oldH.getD c.oldR []]⟩)

/-- The write operations of `Context`. -/
inductive CtxOp where
  | set (key : Str) (value : CtxVal)
  | mergeData (m : List (Str × CtxVal))
  | pushStack (name : Str) (content : Str)
  | prependStack (name : Str) (content : Str)
  | setSection (name : Str) (content : Str)
  | setErrors (m : List (Str × List Str))
  | setOld (m : List (Str × Str))

/-- Apply one write operation through a context's references.
`Set`/`Merge`/`PushStack`/`PrependStack`/`SetSection` update entries of
the referenced table; `SetErrors`/`SetOld` replace the referenced table
wholesale (the Go fields are reassigned to the argument map). -/
def applyCtxOp (op : CtxOp) (c : Ctx) (h : CtxHeap) : CtxHeap :=
  match op with
  | .set k v =>
    let t := assocSet (h.dataH.getD c.dataR []) k v
    { h with dataH := h.dataH.set c.dataR t }
  | .mergeData m =>
    let t := m.foldl (fun t p => assocSet t p.1 p.2) (h.dataH.getD c.dataR [])
    { h with dataH := h.dataH.set c.dataR t }
  | .pushStack n content =>
    let t := h.stacksH.getD c.stacksR []
    let t2 := assocSet t n ((assocGet t n).getD [] ++ [content])
    { h with stacksH := h.stacksH.set c.stacksR t2 }
  | .prependStack n content =>
    let t := h.stacksH.getD c.stacksR []
    let t2 := assocSet t n ([content] ++ (assocGet t n).getD [])
    { h with stacksH := h.stacksH.set c.stacksR t2 }
  | .setSection n content =>
    let t := assocSet (h.sectionsH.getD c.sectionsR []) n content
    { h with sectionsH := h.sectionsH.set c.sectionsR t }
  | .setErrors m => { h with errorsH := h.errorsH.set c.errorsR m }
  | .setOld m => { h with oldH := h.oldH.set c.oldR m }

/-- `Engine.compile` keeping the full compiler state (for stating facts
about the side tables alongside the emitted text). -/
def compilePipeline (content : Str) : Option (CompSt × Str) :=
  match tokenize content with
  | .error _ => none
  | .ok toks =>
    match parseTokens toks with
    | .error _ => none
    | .ok nodes => some (compileRoot nodes)

/-- The cyclic pair of templates of claim C1: `A` extends `B` and `B`
extends `A`. -/
def cyclicFiles : List (Str × Str) :=
  [("A.legit".toList, "@extends(\x27B\x27)".toList),
   ("B.legit".toList, "@extends(\x27A\x27)".toList)]


/-- Equality on `Except` results is decidable componentwise. -/
instance {ε α : Type} [DecidableEq ε] [DecidableEq α] : DecidableEq (Except ε α) :=
  fun a b =>
    match a, b with
    | .ok x, .ok y => decidable_of_iff (x = y) (by simp)
    | .error x, .error y => decidable_of_iff (x = y) (by simp)
    | .ok _, .error _ => isFalse (by simp)
    | .error _, .ok _ => isFalse (by simp)



/-- Parse a token list and compile it, reporting the emitted text and
the pushes/prepends side-table entries for one stack name. -/
def stackInfoOfToks (toks : List Token) (stackName : Str) :
    Option (Str × Option (List Str) × Option (List Str)) :=
  match parseTokens toks with
  | .error _ => none
  | .ok nodes =>
    match compileRoot nodes with
    | (st, out) => some (out, assocGet st.pushes stackName, assocGet st.prepends stackName)

/-- The token list of `@push(\x27s\x27)A@endpush @push(\x27s\x27)B@endpush @stack(\x27s\x27)`. -/
def c8toks : List Token :=
  [⟨.directiveArgs, "push".toList, "\x27s\x27".toList, ⟨1, 1, 0⟩⟩,
   ⟨.text, "A".toList, "".toList, ⟨1, 11, 10⟩⟩,
   ⟨.directive, "endpush".toList, "".toList, ⟨1, 12, 11⟩⟩,
   ⟨.text, " ".toList, "".toList, ⟨1, 20, 19⟩⟩,
   ⟨.directiveArgs, "push".toList, "\x27s\x27".toList, ⟨1, 21, 20⟩⟩,
   ⟨.text, "B".toList, "".toList, ⟨1, 31, 30⟩⟩,
   ⟨.directive, "endpush".toList, "".toList, ⟨1, 32, 31⟩⟩,
   ⟨.text, " ".toList, "".toList, ⟨1, 40, 39⟩⟩,
   ⟨.directiveArgs, "stack".toList, "\x27s\x27".toList, ⟨1, 41, 40⟩⟩,
   ⟨.eof, "".toList, "".toList, ⟨1, 52, 51⟩⟩]

/-- The token list of the same template with `@prepend(\x27s\x27)Z@endprepend`
in front. -/
def c8btoks : List Token :=
  [⟨.directiveArgs, "prepend".toList, "\x27s\x27".toList, ⟨1, 1, 0⟩⟩,
   ⟨.text, "Z".toList, "".toList, ⟨1, 14, 13⟩⟩,
   ⟨.directive, "endprepend".toList, "".toList, ⟨1, 15, 14⟩⟩,
   ⟨.text, " ".toList, "".toList, ⟨1, 26, 25⟩⟩,
   ⟨.directiveArgs, "push".toList, "\x27s\x27".toList, ⟨1, 27, 26⟩⟩,
   ⟨.text, "A".toList, "".toList, ⟨1, 37, 36⟩⟩,
   ⟨.directive, "endpush".toList, "".toList, ⟨1, 38, 37⟩⟩,
   ⟨.text, " ".toList, "".toList, ⟨1, 46, 45⟩⟩,
   ⟨.directiveArgs, "push".toList, "\x27s\x27".toList, ⟨1, 47, 46⟩⟩,
   ⟨.text, "B".toList, "".toList, ⟨1, 57, 56⟩⟩,
   ⟨.directive, "endpush".toList, "".toList, ⟨1, 58, 57⟩⟩,
   ⟨.text, " ".toList, "".toList, ⟨1, 66, 65⟩⟩,
   ⟨.directiveArgs, "stack".toList, "\x27s\x27".toList, ⟨1, 67, 66⟩⟩,
   ⟨.eof, "".toList, "".toList, ⟨1, 78, 77⟩⟩]

/- ### Theorems -/

/-- Claim C3: `Loop.Update(i)` for `i ≥ 0` produces a fresh record with
iteration `i+1`, remaining `-1` when the count is unknown and
`count-i-1` otherwise, `last` exactly when the count is known and `i` is
its last index, `first` iff `i = 0`, `even` iff `i+1` is even, `odd` the
negation of `even`, and count/depth/parent carried over unchanged (the
Go code builds a new record, leaving the previous one unmodified). -/
theorem loop_update_matches_spec (l : Loop) (i : Int) (h : 0 ≤ i) :
    (l.update i).iteration = i + 1 ∧
    (l.update i).remaining = (if l.count < 0 then -1 else l.count - i - 1) ∧
    ((l.update i).last = true ↔ 0 ≤ l.count ∧ i = l.count - 1) ∧
    ((l.update i).first = true ↔ i = 0) ∧
    ((l.update i).even = true ↔ (i + 1) % 2 = 0) ∧
    ((l.update i).odd = !(l.update i).even) ∧
    (l.update i).count = l.count ∧
    (l.update i).depth = l.depth ∧
    (l.update i).parent = l.parent := by
  obtain ⟨idx, it, rem, cnt, f, la, ev, od, dep, par⟩ := l
  have htm : (i + 1).tmod 2 = (i + 1) % 2 :=
    Int.tmod_eq_emod (by omega) (by norm_num)
  refine ⟨rfl, ?_, ?_, ?_, ?_, ?_, rfl, rfl, rfl⟩
  · simp only [Loop.update, Loop.remaining, Loop.count]
    split <;> split <;> omega
  · simp only [Loop.update, Loop.last, Loop.count]
    split
    · simp only [beq_iff_eq]
      omega
    · simp only [Bool.false_eq_true, false_iff]
      omega
  · simp [Loop.update, Loop.first]
  · simp [Loop.update, Loop.even, htm]
  · simp only [Loop.update, Loop.odd, Loop.even, htm]
    rcases Int.emod_two_eq_zero_or_one (i + 1) with h2 | h2 <;> simp [h2]

/-- Witness for C3 at the concrete record `NewLoop 3 1` and index 1. -/
theorem loop_update_matches_spec_witness :
    (0 : Int) ≤ 1 ∧ ((NewLoop 3 1).update 1).iteration = 1 + 1 :=
  ⟨by decide, (loop_update_matches_spec (NewLoop 3 1) 1 (by decide)).1⟩

/-- Claim C6: `compileWhile` lowers every `@while` node to a counting
range over `until 1000` whose emitted body re-checks the rewritten
condition before the loop children and breaks once it is false; in the
execution model of that construct the children therefore run at most
1000 times. -/
theorem while_lowering_bounded :
    (∀ (st : CompSt) (cond : Str) (children : List Node),
      (compileNode st (Node.WhileNode cond children)).2 =
        compileWhileStr (st.loopDepth + 1) (transformExpression cond)
          (compileChildren { st with loopDepth := st.loopDepth + 1 } children).2) ∧
    (∀ (d : Int) (c cs : Str),
      compileWhileStr d c cs =
        "\x7b\x7b $__loop".toList ++ intStr d ++ " := newLoop -1 ".toList ++
          intStr d ++ " \x7d\x7d".toList ++
        "\x7b\x7b range $__idx".toList ++ intStr d ++
          " := until 1000 \x7d\x7d".toList ++
        "\x7b\x7b if not ".toList ++ c ++
          " \x7d\x7d\x7b\x7b break \x7d\x7d\x7b\x7b end \x7d\x7d".toList ++
        "\x7b\x7b $loop := $__loop".toList ++ intStr d ++ ".Update $__idx".toList ++
          intStr d ++ " \x7d\x7d".toList ++
        cs ++ "\x7b\x7b end \x7d\x7d".toList) ∧
    (untilList 1000).length = 1000 ∧
    (∀ (σ : Type) (cond : σ → Bool) (body : σ → σ) (s : σ),
      (runWhileRange cond body (untilList 1000) s).2 ≤ 1000) := by
  refine ⟨fun st cond children => rfl, fun d c cs => rfl, by decide, ?_⟩
  · intro σ cond body s
    have hn : (untilList 1000).length = 1000 := by decide
    rw [← hn]
    generalize untilList 1000 = l
    induction l generalizing s with
    | nil => simp [runWhileRange]
    | cons a t ih =>
      simp only [runWhileRange]
      split
      · rcases hr : runWhileRange cond body t (body s) with ⟨s2, n⟩
        have := ih (body s)
        rw [hr] at this
        simpa using this
      · simp

/-- Claim C10: when the `@for` condition contains no decimal literal
after a `<` (the regex `<\s*=?\s*(\d+)` fails), `extractForRange` falls
back to the end bound `10`, so the node is lowered to a range over
`seq init 10`; for init `0` that range is `0..10`. -/
theorem for_default_bound_ten (st : CompSt) (init cond post : Str)
    (children : List Node) (h : forCondEnd cond = none) :
    extractForRange init cond =
      (match strIndex ['='] (goTrimPrefix ['$'] init) with
       | some idx => goTrimSpace ((goTrimPrefix ['$'] init).drop (idx + 1))
       | none => goTrimPrefix ['$'] init) ++ " 10".toList ∧
    (compileNode st (Node.ForNode init cond post children)).2 =
      compileForStr (st.loopDepth + 1) (extractForRange init cond)
        (compileChildren { st with loopDepth := st.loopDepth + 1 } children).2 ∧
    (∀ (d : Int) (rangeArgs cs : Str),
      compileForStr d rangeArgs cs =
        "\x7b\x7b $__loop".toList ++ intStr d ++ " := newLoop -1 ".toList ++
          intStr d ++ " \x7d\x7d".toList ++
        "\x7b\x7b range $__idx".toList ++ intStr d ++ " := seq ".toList ++
          rangeArgs ++ " \x7d\x7d".toList ++
        "\x7b\x7b $loop := $__loop".toList ++ intStr d ++ ".Update $__idx".toList ++
          intStr d ++ " \x7d\x7d".toList ++
        cs ++ "\x7b\x7b end \x7d\x7d".toList) ∧
    seq 0 10 = [0, 1, 2, 3, 4, 5, 6, 7, 8, 9, 10] := by
  refine ⟨?_, rfl, fun d r cs => rfl, by decide⟩
  · simp only [extractForRange, h]
    simp

theorem for_default_bound_ten_witness :
    forCondEnd "$i < $n".toList = none ∧
    extractForRange "$i = 0".toList "$i < $n".toList = "0 10".toList := by
  refine ⟨by decide, ?_⟩
  rw [(for_default_bound_ten newCompSt "$i = 0".toList "$i < $n".toList
    "$i++".toList [] (by decide)).1]
  decide

/-- Claim C2: compilation of the two echo forms.  `\x7b\x7b $x \x7d\x7d`
compiles to the action `\x7b\x7b html .x \x7d\x7d` (the registered `html`
function is `template.HTMLEscapeString`, which maps `<b>` to `&lt;b&gt;`),
but `\x7b!! $x !!\x7d` compiles to the bare action `\x7b\x7b .x \x7d\x7d`,
which Go's `html/template` renderer used by `RenderTemplate`
contextually auto-escapes: the raw echo cannot produce unescaped
output. -/
theorem echo_escaping_compiled :
    compileString "\x7b\x7b $x \x7d\x7d".toList = .ok "\x7b\x7b html .x \x7d\x7d".toList ∧
    compileString "\x7b!! $x !!\x7d".toList = .ok "\x7b\x7b .x \x7d\x7d".toList ∧
    htmlEscapeString "<b>".toList = "&lt;b&gt;".toList ∧
    htmlEscapeString "<b>".toList ≠ "<b>".toList :=
  ⟨by decide, by decide, by decide, by decide⟩

/-- Claim C4: the foreach template of the claim compiles to code that
binds the Go-template variable `$loop` but whose echo was rewritten by
`transformExpression` to the data-field reference `.loop.iteration`
(and not to the bound variable), so the emitted body never reads the
loop record. -/
theorem foreach_loop_variable_lost :
    compileString "@foreach($items as $item)\x7b\x7b $loop.iteration \x7d\x7d@endforeach".toList = .ok "\x7b\x7b $__loop1 := newLoop (len .items) 1 \x7d\x7d\x7b\x7b range $__idx1, $item := .items \x7d\x7d\x7b\x7b $loop := $__loop1.Update $__idx1 \x7d\x7d\x7b\x7b html .loop.iteration \x7d\x7d\x7b\x7b end \x7d\x7d".toList ∧
    transformExpression "$loop.iteration".toList = ".loop.iteration".toList ∧
    hasSubstr "$__loop1.Update".toList "\x7b\x7b $__loop1 := newLoop (len .items) 1 \x7d\x7d\x7b\x7b range $__idx1, $item := .items \x7d\x7d\x7b\x7b $loop := $__loop1.Update $__idx1 \x7d\x7d\x7b\x7b html .loop.iteration \x7d\x7d\x7b\x7b end \x7d\x7d".toList = true ∧
    hasSubstr "\x7b\x7b html .loop.iteration \x7d\x7d".toList "\x7b\x7b $__loop1 := newLoop (len .items) 1 \x7d\x7d\x7b\x7b range $__idx1, $item := .items \x7d\x7d\x7b\x7b $loop := $__loop1.Update $__idx1 \x7d\x7d\x7b\x7b html .loop.iteration \x7d\x7d\x7b\x7b end \x7d\x7d".toList = true :=
  ⟨by decide, by decide, by decide, by decide⟩

/-- Claim C5: in the compiled nested-foreach code the inner loop record
is created by `newLoop`, whose `Parent` is `nil`, and `Update` carries
that `nil` along: no compiled construct ever calls `LoopStack.Push`, so
`$loop.parent` is never linked to the outer loop (and the echo is
additionally rewritten to the data-field reference
`.loop.parent.iteration`). -/
theorem nested_loop_parent_never_linked :
    compileString "@foreach($xs as $x)@foreach($ys as $y)\x7b\x7b $loop.parent.iteration \x7d\x7d@endforeach@endforeach".toList = .ok "\x7b\x7b $__loop1 := newLoop (len .xs) 1 \x7d\x7d\x7b\x7b range $__idx1, $x := .xs \x7d\x7d\x7b\x7b $loop := $__loop1.Update $__idx1 \x7d\x7d\x7b\x7b $__loop2 := newLoop (len .ys) 2 \x7d\x7d\x7b\x7b range $__idx2, $y := .ys \x7d\x7d\x7b\x7b $loop := $__loop2.Update $__idx2 \x7d\x7d\x7b\x7b html .loop.parent.iteration \x7d\x7d\x7b\x7b end \x7d\x7d\x7b\x7b end \x7d\x7d".toList ∧
    (∀ (c d : Int), (NewLoop c d).parent = none) ∧
    (∀ (c d : Int) (idxs : List Int),
      (idxs.foldl Loop.update (NewLoop c d)).parent = none) := by
  refine ⟨by decide, fun c d => rfl, ?_⟩
  intro c d idxs
  have aux : ∀ (l2 : List Int) (l : Loop), l.parent = none →
      (l2.foldl Loop.update l).parent = none := by
    intro l2
    induction l2 with
    | nil => intro l h; exact h
    | cons a t ih =>
      intro l h
      apply ih
      obtain ⟨_, _, _, _, _, _, _, _, _, _⟩ := l
      simpa [Loop.update, Loop.parent] using h
  exact aux idxs (NewLoop c d) rfl

/-- Claim C8: pushed and prepended fragments are recorded in the
compiler's side tables in append/prepend order, but the emitted output
for `@stack` is only the call `\x7b\x7b stack "s" \x7d\x7d` — and no
function named `stack` is registered by `DefaultFunctions`, so parsing
the compiled text with the engine's function map fails; the side tables
are never rendered. -/
theorem stack_function_missing :
    tokenize "@push(\x27s\x27)A@endpush @push(\x27s\x27)B@endpush @stack(\x27s\x27)".toList = .ok c8toks ∧
    stackInfoOfToks c8toks "s".toList =
      some ("  \x7b\x7b stack \"s\" \x7d\x7d".toList,
            some ["A".toList, "B".toList], none) ∧
    tokenize "@prepend(\x27s\x27)Z@endprepend @push(\x27s\x27)A@endpush @push(\x27s\x27)B@endpush @stack(\x27s\x27)".toList = .ok c8btoks ∧
    stackInfoOfToks c8btoks "s".toList =
      some ("   \x7b\x7b stack \"s\" \x7d\x7d".toList,
            some ["A".toList, "B".toList], some ["Z".toList]) ∧
    defaultFunctionNames.contains "stack".toList = false :=
  ⟨by decide, by decide, by decide, by decide, by decide⟩

/-- One unfolding of the cyclic recursion: resolving template `B`
(which extends `A`) recurses to `A` with one unit of fuel consumed. -/
theorem cwi_stepB (n : Nat) (cc : Str) :
    compileWithInheritance cyclicFiles (n + 1) cc "B".toList [] =
      compileWithInheritance cyclicFiles n [] "A".toList [] := by rfl

/-- One unfolding of the cyclic recursion: resolving template `A`
(which extends `B`) recurses to `B` with one unit of fuel consumed. -/
theorem cwi_stepA (n : Nat) (cc : Str) :
    compileWithInheritance cyclicFiles (n + 1) cc "A".toList [] =
      compileWithInheritance cyclicFiles n [] "B".toList [] := by rfl

/-- The cyclic resolution exhausts every fuel bound, from either entry. -/
theorem cyclic_extends_aux : ∀ n : Nat,
    (∀ cc : Str, compileWithInheritance cyclicFiles n cc "A".toList [] = none) ∧
    (∀ cc : Str, compileWithInheritance cyclicFiles n cc "B".toList [] = none) := by
  intro n
  induction n with
  | zero => exact ⟨fun _ => rfl, fun _ => rfl⟩
  | succ m ih =>
    refine ⟨fun cc => ?_, fun cc => ?_⟩
    · rw [cwi_stepA m cc]
      exact ih.2 []
    · rw [cwi_stepB m cc]
      exact ih.1 []

/-- Claim C1: template `A` compiles to an empty body extending `B`, and
resolving that inheritance over the cyclic pair `A extends B extends A`
fails to complete within any recursion-depth bound: the source recurses
unconditionally, with no visited-name tracking and no cyclic-extends
error anywhere in the code. -/
theorem cyclic_extends_diverges :
    engineCompile "@extends(\x27B\x27)".toList = .ok ([], "B".toList, []) ∧
    ∀ fuel : Nat, compileWithInheritance cyclicFiles fuel [] "B".toList [] = none :=
  ⟨by decide, fun fuel => (cyclic_extends_aux fuel).2 []⟩

/-- Writing one list cell leaves every other cell's default read intact. -/
theorem getD_set_ne {α : Type} (l : List α) (i j : Nat) (x d : α) (h : i ≠ j) :
    (l.set i x).getD j d = l.getD j d := by
  simp [List.getD, List.getElem?_set_ne h]

/-- Claim C9: `Clone` allocates fresh tables copied from the original,
so every context write applied through the clone leaves all five tables
of the original unchanged, and every write applied through the original
leaves the clone's tables unchanged — in any later heap state, i.e.
after any sequence of further writes. -/
theorem clone_isolates_writes (c : Ctx) (h : CtxHeap) (hv : c.Valid h)
    (op : CtxOp) (h2 : CtxHeap) :
    readCtx c (applyCtxOp op (cloneCtx c h).1 h2) = readCtx c h2 ∧
    readCtx (cloneCtx c h).1 (applyCtxOp op c h2) = readCtx (cloneCtx c h).1 h2 := by
  obtain ⟨hd, hs, hsec, he, ho⟩ := hv
  have e1 : ∀ t, (h2.dataH.set h.dataH.length t)[c.dataR]? = h2.dataH[c.dataR]? :=
    fun t => List.getElem?_set_ne (by omega)
  have e2 : ∀ t, (h2.stacksH.set h.stacksH.length t)[c.stacksR]? = h2.stacksH[c.stacksR]? :=
    fun t => List.getElem?_set_ne (by omega)
  have e3 : ∀ t, (h2.sectionsH.set h.sectionsH.length t)[c.sectionsR]? = h2.sectionsH[c.sectionsR]? :=
    fun t => List.getElem?_set_ne (by omega)
  have e4 : ∀ t, (h2.errorsH.set h.errorsH.length t)[c.errorsR]? = h2.errorsH[c.errorsR]? :=
    fun t => List.getElem?_set_ne (by omega)
  have e5 : ∀ t, (h2.oldH.set h.oldH.length t)[c.oldR]? = h2.oldH[c.oldR]? :=
    fun t => List.getElem?_set_ne (by omega)
  have f1 : ∀ t, (h2.dataH.set c.dataR t)[h.dataH.length]? = h2.dataH[h.dataH.length]? :=
    fun t => List.getElem?_set_ne (by omega)
  have f2 : ∀ t, (h2.stacksH.set c.stacksR t)[h.stacksH.length]? = h2.stacksH[h.stacksH.length]? :=
    fun t => List.getElem?_set_ne (by omega)
  have f3 : ∀ t, (h2.sectionsH.set c.sectionsR t)[h.sectionsH.length]? = h2.sectionsH[h.sectionsH.length]? :=
    fun t => List.getElem?_set_ne (by omega)
  have f4 : ∀ t, (h2.errorsH.set c.errorsR t)[h.errorsH.length]? = h2.errorsH[h.errorsH.length]? :=
    fun t => List.getElem?_set_ne (by omega)
  have f5 : ∀ t, (h2.oldH.set c.oldR t)[h.oldH.length]? = h2.oldH[h.oldH.length]? :=
    fun t => List.getElem?_set_ne (by omega)
  refine ⟨?_, ?_⟩ <;> cases op <;>
    simp [readCtx, applyCtxOp, cloneCtx, e1, e2, e3, e4, e5, f1, f2, f3, f4, f5]

/-- Witness for C9: a fresh context in a one-cell heap, a `Set` write
through the clone. -/
theorem clone_isolates_writes_witness :
    Ctx.Valid ⟨0, 0, 0, 0, 0⟩ ⟨[[]], [[]], [[]], [[]], [[]]⟩ ∧
    readCtx ⟨0, 0, 0, 0, 0⟩
        (applyCtxOp (.set "a".toList "v".toList)
          (cloneCtx ⟨0, 0, 0, 0, 0⟩ ⟨[[]], [[]], [[]], [[]], [[]]⟩).1
          (cloneCtx ⟨0, 0, 0, 0, 0⟩ ⟨[[]], [[]], [[]], [[]], [[]]⟩).2) =
      readCtx ⟨0, 0, 0, 0, 0⟩
        (cloneCtx ⟨0, 0, 0, 0, 0⟩ ⟨[[]], [[]], [[]], [[]], [[]]⟩).2 :=
  ⟨by decide,
   (clone_isolates_writes ⟨0, 0, 0, 0, 0⟩ ⟨[[]], [[]], [[]], [[]], [[]]⟩ (by decide)
     (.set "a".toList "v".toList)
     (cloneCtx ⟨0, 0, 0, 0, 0⟩ ⟨[[]], [[]], [[]], [[]], [[]]⟩).2).1⟩

/- ### Comment lexing (claim C7) -/

/-- Splitting a substring test at a cons cell. -/
theorem hasSubstr_cons_false {pat : Str} {c : Char} {cs : Str}
    (h : hasSubstr pat (c :: cs) = false) :
    goHasPrefix pat (c :: cs) = false ∧ hasSubstr pat cs = false := by
  rw [hasSubstr] at h
  exact Bool.or_eq_false_iff.mp h

/-- A prefix test that fits inside the left part of an append ignores the
right part. -/
theorem goHasPrefix_append_of_le (pat l r : Str) (h : pat.length ≤ l.length) :
    goHasPrefix pat (l ++ r) = goHasPrefix pat l := by
  induction pat generalizing l with
  | nil => simp [goHasPrefix]
  | cons p ps ih =>
    cases l with
    | nil => simp at h
    | cons a as =>
      simp only [List.cons_append, goHasPrefix, List.append_eq]
      rw [ih as (by simpa using h)]

/-- Advancing the lexer drops one character of the remaining input. -/
theorem lexAdvance_rem (st : LexSt) : (lexAdvance st).rem = st.rem.tail := by
  obtain ⟨rem, line, col, off, iv⟩ := st
  cases rem with
  | nil => rfl
  | cons a as =>
    simp only [lexAdvance]
    split <;> rfl

/-- Advancing the lexer n times drops n characters of the remaining input. -/
theorem lexAdvanceN_rem (n : Nat) (st : LexSt) :
    (lexAdvanceN n st).rem = st.rem.drop n := by
  induction n generalizing st with
  | zero => rfl
  | succ m ih =>
    rw [lexAdvanceN, ih, lexAdvance_rem]
    cases st.rem <;> simp [List.drop_succ_cons]

/-- When the comment body holds no terminator, the comment scan splits
exactly at the terminator that follows it. -/
theorem commentSplit_found : ∀ (c r : Str), hasSubstr "--\x7d\x7d".toList c = false →
    commentSplit (c ++ "--\x7d\x7d".toList ++ r) = some (c, r) := by
  intro c
  induction c with
  | nil =>
    intro r _
    show commentSplit ('-' :: '-' :: '\x7d' :: '\x7d' :: r) = some ([], r)
    simp [commentSplit, goHasPrefix]
  | cons ch cs ih =>
    intro r h
    obtain ⟨h1, h2⟩ := hasSubstr_cons_false h
    have hpref : goHasPrefix ('-' :: '-' :: '\x7d' :: '\x7d' :: []) (ch :: (cs ++ "--\x7d\x7d".toList ++ r)) = false := by
      match cs with
      | [] => simp [goHasPrefix]
      | [a] => simp [goHasPrefix]
      | [a, b] => simp [goHasPrefix]
      | a :: b :: d :: tl =>
        have : goHasPrefix ('-' :: '-' :: '\x7d' :: '\x7d' :: []) (ch :: a :: b :: d :: (tl ++ "--\x7d\x7d".toList ++ r)) =
            goHasPrefix ('-' :: '-' :: '\x7d' :: '\x7d' :: []) (ch :: a :: b :: d :: tl) := by
          have := goHasPrefix_append_of_le ('-' :: '-' :: '\x7d' :: '\x7d' :: [])
            (ch :: a :: b :: d :: tl) ("--\x7d\x7d".toList ++ r) (by simp)
          simpa using this
        simp only [List.cons_append] at this ⊢
        rw [this]
        exact h1
    rw [List.cons_append]
    simp only [commentSplit, List.append_eq]
    rw [hpref]
    simp
    simpa using ih r h2

/-- When the input holds no terminator at all, the comment scan fails. -/
theorem commentSplit_none : ∀ (c : Str), hasSubstr "--\x7d\x7d".toList c = false →
    commentSplit c = none := by
  intro c
  induction c with
  | nil => intro _; rfl
  | cons ch cs ih =>
    intro h
    obtain ⟨h1, h2⟩ := hasSubstr_cons_false h
    simp only [commentSplit]
    rw [show goHasPrefix ('-' :: '-' :: '\x7d' :: '\x7d' :: []) (ch :: cs) = false from h1]
    simp [ih h2]

/-- One dispatch of the tokenize loop on a non-empty input. -/
theorem tokenizeLoop_step (n : Nat) (st : LexSt) (hne : ¬ st.rem = []) :
    tokenizeLoop (n + 1) st =
      Except.bind (nextToken st) (fun p =>
        Except.bind (tokenizeLoop n p.2) (fun rest => Except.ok (p.1 ++ rest))) := by
  rw [tokenizeLoop, if_neg hne]
  rfl

/-- One dispatch of the tokenize loop when the scanner succeeds. -/
theorem tokenizeLoop_step_ok (n : Nat) (st st2 : LexSt) (toks : List Token)
    (hne : ¬ st.rem = []) (hnt : nextToken st = .ok (toks, st2)) :
    tokenizeLoop (n + 1) st =
      Except.bind (tokenizeLoop n st2) (fun rest => Except.ok (toks ++ rest)) := by
  rw [tokenizeLoop_step n st hne, hnt]
  rfl

/-- One dispatch of the tokenize loop when the scanner fails. -/
theorem tokenizeLoop_step_err (n : Nat) (st : LexSt) (e : LexErr)
    (hne : ¬ st.rem = []) (hnt : nextToken st = .error e) :
    tokenizeLoop (n + 1) st = .error e := by
  rw [tokenizeLoop_step n st hne, hnt]
  rfl

/-- The tokenize loop on exhausted input emits the EOF token. -/
theorem tokenizeLoop_nil (n : Nat) (st : LexSt) (h : st.rem = []) :
    tokenizeLoop (n + 1) st = .ok [⟨.eof, [], [], lexPos st⟩] := by
  rw [tokenizeLoop, if_pos h]

/-- Claim C7 (amended): for every input that BEGINS with a comment opener
at a scan position, a matched terminator yields a single Comment token whose
value is the enclosed content with surrounding whitespace trimmed, and a
missing terminator makes Tokenize fail with the unterminated-comment error.
The original claim quantified over every input merely containing the opener;
the counterexample below shows that form is false, since an opener inside an
echo is ordinary echo content. -/
theorem comment_lexing_amended (c : Str)
    (h : hasSubstr "--\x7d\x7d".toList c = false) :
    (∃ p, tokenize ("\x7b\x7b--".toList ++ c ++ "--\x7d\x7d".toList) =
        .ok [⟨.comment, goTrimSpace c, [], ⟨1, 1, 0⟩⟩, ⟨.eof, [], [], p⟩]) ∧
    tokenize ("\x7b\x7b--".toList ++ c) =
      .error ⟨"Unclosed comment".toList, ⟨1, 1, 0⟩⟩ := by
  have hsplit : commentSplit (c ++ "--\x7d\x7d".toList) = some (c, []) := by
    simpa using commentSplit_found c [] h
  have hnt : nextToken ⟨'\x7b' :: '\x7b' :: '-' :: '-' :: (c ++ "--\x7d\x7d".toList), 1, 1, 0, false⟩ =
      .ok ([⟨.comment, goTrimSpace c, [], ⟨1, 1, 0⟩⟩],
           lexAdvanceN (4 + c.length + 4)
             ⟨'\x7b' :: '\x7b' :: '-' :: '-' :: (c ++ "--\x7d\x7d".toList), 1, 1, 0, false⟩) := by
    show (scanComment _).map (fun p => ([p.1], p.2)) = _
    rw [scanComment]
    rw [show (LexSt.rem ⟨'\x7b' :: '\x7b' :: '-' :: '-' :: (c ++ "--\x7d\x7d".toList), 1, 1, 0, false⟩).drop 4 = c ++ "--\x7d\x7d".toList from rfl]
    rw [hsplit]
    rfl
  have hrem : (lexAdvanceN (4 + c.length + 4)
      ⟨'\x7b' :: '\x7b' :: '-' :: '-' :: (c ++ "--\x7d\x7d".toList), 1, 1, 0, false⟩).rem = [] := by
    rw [lexAdvanceN_rem]
    show ('\x7b' :: '\x7b' :: '-' :: '-' :: (c ++ "--\x7d\x7d".toList)).drop (4 + c.length + 4) = []
    apply List.drop_eq_nil_of_le
    simp
    omega
  constructor
  · refine ⟨lexPos (lexAdvanceN (4 + c.length + 4)
      ⟨'\x7b' :: '\x7b' :: '-' :: '-' :: (c ++ "--\x7d\x7d".toList), 1, 1, 0, false⟩), ?_⟩
    have hgoal : tokenizeLoop (c.length + 8 + 1)
        ⟨'\x7b' :: '\x7b' :: '-' :: '-' :: (c ++ "--\x7d\x7d".toList), 1, 1, 0, false⟩ =
        .ok [⟨.comment, goTrimSpace c, [], ⟨1, 1, 0⟩⟩,
             ⟨.eof, [], [], lexPos (lexAdvanceN (4 + c.length + 4)
               ⟨'\x7b' :: '\x7b' :: '-' :: '-' :: (c ++ "--\x7d\x7d".toList), 1, 1, 0, false⟩)⟩] := by
      rw [tokenizeLoop_step_ok (c.length + 8) _ _ _ (by simp) hnt]
      rw [show c.length + 8 = c.length + 7 + 1 from rfl]
      rw [tokenizeLoop_nil (c.length + 7) _ hrem]
      rfl
    have hlen : ("\x7b\x7b--".toList ++ c ++ "--\x7d\x7d".toList).length + 1 = c.length + 8 + 1 := by
      rw [List.length_append, List.length_append]
      rw [show ("\x7b\x7b--".toList).length = 4 from rfl, show ("--\x7d\x7d".toList).length = 4 from rfl]
      omega
    rw [tokenize, hlen]
    exact hgoal
  · have hnt2 : nextToken ⟨'\x7b' :: '\x7b' :: '-' :: '-' :: c, 1, 1, 0, false⟩ =
        .error ⟨"Unclosed comment".toList, ⟨1, 1, 0⟩⟩ := by
      show (scanComment _).map (fun p => ([p.1], p.2)) = _
      rw [scanComment]
      rw [show (LexSt.rem ⟨'\x7b' :: '\x7b' :: '-' :: '-' :: c, 1, 1, 0, false⟩).drop 4 = c from rfl]
      rw [commentSplit_none c h]
      rfl
    have hlen2 : ("\x7b\x7b--".toList ++ c).length + 1 = c.length + 4 + 1 := by
      rw [List.length_append]
      rw [show ("\x7b\x7b--".toList).length = 4 from rfl]
      omega
    rw [tokenize, hlen2]
    exact tokenizeLoop_step_err (c.length + 4) _ _ (by simp) hnt2

/-- Witness for claim C7 at the concrete comment body consisting of the
word hi with a blank on both sides. -/
theorem comment_lexing_amended_witness :
    hasSubstr "--\x7d\x7d".toList " hi ".toList = false ∧
    ((∃ p, tokenize ("\x7b\x7b--".toList ++ " hi ".toList ++ "--\x7d\x7d".toList) =
        .ok [⟨.comment, goTrimSpace " hi ".toList, [], ⟨1, 1, 0⟩⟩, ⟨.eof, [], [], p⟩]) ∧
     tokenize ("\x7b\x7b--".toList ++ " hi ".toList) =
       .error ⟨"Unclosed comment".toList, ⟨1, 1, 0⟩⟩) :=
  ⟨by decide, comment_lexing_amended " hi ".toList (by decide)⟩

/-- Claim C7, counterexample to the frozen wording: this concrete input
contains the comment opener and no terminator anywhere, yet Tokenize
succeeds, returning an escaped-echo token (the opener sits inside an echo),
not an unterminated-comment error. -/
theorem comment_open_without_close_not_error :
    hasSubstr "\x7b\x7b--".toList "\x7b\x7b \x7b\x7b-- \x7d\x7d".toList = true ∧
    hasSubstr "--\x7d\x7d".toList "\x7b\x7b \x7b\x7b-- \x7d\x7d".toList = false ∧
    tokenize "\x7b\x7b \x7b\x7b-- \x7d\x7d".toList =
      .ok [⟨.echoEscaped, "\x7b\x7b--".toList, [], ⟨1, 1, 0⟩⟩,
           ⟨.eof, [], [], ⟨1, 11, 10⟩⟩] := by
  refine ⟨by decide, by decide, by decide⟩
